import Mathlib

/-!
Verification development for the WebAssembly object-file reader of this
repository.  The repository source under review contains the class
declaration (include/llvm/Object/Wasm.h): the WasmObjectFile object model,
its accessor surface, the WasmSymbol flag predicates, and the
WasmSectionOrderChecker slot enumeration.  The bodies of the section
decoders live in a translation unit that is not part of the provided
sources, so every decoder below is a shallow embedding reconstructed from
the specification, while the data model, the slot numbering and the
WasmSymbol predicates follow the header directly.

Bytes are modelled as natural numbers taken modulo 256 at each read.
Fallible decoding is modelled with Except: a parse either produces the
fully populated model or the first structural error, as the specification
requires.
-/

namespace WasmObj

/-- Error taxonomy of the parser: Malformed, InvalidIndex,
InvalidSectionOrder, DuplicateSection, UnsupportedVersion. -/
inductive ParseError where
  | malformed (msg : String)
  | invalidIndex (msg : String)
  | invalidSectionOrder
  | duplicateSection (msg : String)
  | unsupportedVersion (msg : String)
deriving DecidableEq, Repr

/-- Coarse classification of an error, used to state which taxonomy class
a rejection belongs to. -/
inductive ErrKind where
  | malformed
  | invalidIndex
  | invalidSectionOrder
  | duplicateSection
  | unsupportedVersion
deriving DecidableEq, Repr

def ParseError.kind : ParseError → ErrKind
  | .malformed _ => .malformed
  | .invalidIndex _ => .invalidIndex
  | .invalidSectionOrder => .invalidSectionOrder
  | .duplicateSection _ => .duplicateSection
  | .unsupportedVersion _ => .unsupportedVersion

/-- Kind of the outcome of a fallible step: none when it succeeded,
otherwise the error class. -/
def errKind {α : Type} : Except ParseError α → Option ErrKind
  | .error e => some e.kind
  | .ok _ => none

/-- True when a fallible step succeeded. -/
def isOkE {α : Type} : Except ParseError α → Bool
  | .error _ => false
  | .ok _ => true

/-! ## Byte cursor

Modelled from the spec: the Byte Cursor component (ReadContext in the
header) with its primitive decoders.  A cursor is represented by the list
of bytes not yet consumed; every read returns the value together with the
remaining bytes, or a Malformed error when it would run past the end. -/

/-- Modelled from the spec: read one byte; reading past the end is a
Malformed error. -/
def readUint8 (bytes : List Nat) : Except ParseError (Nat × List Nat) :=
  match bytes with
  | [] => .error (.malformed "truncated input")
  | b :: rest => .ok (b % 256, rest)

/-- Modelled from the spec: core ULEB128 group reader with a fuel bound on
the number of continuation bytes. -/
def readLEBCore : Nat → List Nat → Except ParseError (Nat × List Nat)
  | _, [] => .error (.malformed "truncated uleb128")
  | 0, _ :: _ => .error (.malformed "uleb128 too long")
  | fuel + 1, b :: rest =>
    if b % 256 < 128 then .ok (b % 256, rest)
    else
      match readLEBCore fuel rest with
      | .error e => .error e
      | .ok (v, r) => .ok (b % 256 % 128 + 128 * v, r)

/-- Modelled from the spec: read a ULEB128 value with a 32-bit width bound
(at most five bytes, value below 2 to the 32). -/
def readVaruint32 (bytes : List Nat) : Except ParseError (Nat × List Nat) :=
  match readLEBCore 5 bytes with
  | .error e => .error e
  | .ok (v, r) =>
    if v < 4294967296 then .ok (v, r)
    else .error (.malformed "uleb128 outside varuint32 range")

/-- Modelled from the spec: core SLEB128 group reader returning the 7-bit
groups low to high. -/
def readSLEBGroups : Nat → List Nat → Except ParseError (List Nat × List Nat)
  | _, [] => .error (.malformed "truncated sleb128")
  | 0, _ :: _ => .error (.malformed "sleb128 too long")
  | fuel + 1, b :: rest =>
    if b % 256 < 128 then .ok ([b % 256], rest)
    else
      match readSLEBGroups fuel rest with
      | .error e => .error e
      | .ok (gs, r) => .ok (b % 256 % 128 :: gs, r)

/-- Value of a list of SLEB128 groups, sign-extended from the top group. -/
def slebValue (gs : List Nat) : Int :=
  let raw : Nat := (gs.foldr (fun g acc => acc * 128 + g) 0)
  let width : Nat := 7 * gs.length
  if gs.getLast? |>.elim false (fun g => 64 ≤ g % 128) then
    (raw : Int) - (2 ^ width : Nat)
  else (raw : Int)

/-- Modelled from the spec: read an SLEB128 value with a 32-bit width
bound. -/
def readVarint32 (bytes : List Nat) : Except ParseError (Int × List Nat) :=
  match readSLEBGroups 5 bytes with
  | .error e => .error e
  | .ok (gs, r) =>
    let v := slebValue gs
    if -2147483648 ≤ v ∧ v < 2147483648 then .ok (v, r)
    else .error (.malformed "sleb128 outside varint32 range")

/-- Modelled from the spec: slice exactly n raw bytes; fewer available is a
Malformed error. -/
def takeBytes (n : Nat) (bytes : List Nat) : Except ParseError (List Nat × List Nat) :=
  if bytes.length < n then .error (.malformed "truncated input slice")
  else .ok (bytes.take n, bytes.drop n)

/-- Modelled from the spec: read a length-prefixed byte string. -/
def readString (bytes : List Nat) : Except ParseError (List Nat × List Nat) :=
  match readVaruint32 bytes with
  | .error e => .error e
  | .ok (n, r) => takeBytes n r

/-- Modelled from the spec: an initializer expression is stored as an
opaque, length-bounded byte span; it extends to the terminating end opcode
(byte 11), which is consumed with it. -/
def readInitExpr : Nat → List Nat → Except ParseError (List Nat × List Nat)
  | _, [] => .error (.malformed "truncated init expr")
  | 0, _ :: _ => .error (.malformed "unterminated init expr")
  | fuel + 1, b :: rest =>
    if b % 256 = 11 then .ok ([11], rest)
    else
      match readInitExpr fuel rest with
      | .error e => .error e
      | .ok (e, r) => .ok (b % 256 :: e, r)

/-! ## Data model

The record shapes follow the declarations in the header (WasmSection,
WasmSegment, the vectors held by WasmObjectFile); the field contents of
the BinaryFormat records are modelled from the spec data model. -/

/-- Limits of a table or memory: flag word, initial size, optional
maximum. -/
structure WasmLimits where
  flags : Nat
  initial : Nat
  maximum : Option Nat
deriving DecidableEq, Repr

/-- A function signature: parameter value types and return value types,
kept as raw value-type bytes. -/
structure WasmSignature where
  params : List Nat
  returns : List Nat
deriving DecidableEq, Repr

/-- Kind-specific descriptor of an import. -/
inductive ImportDesc where
  | func (sigIndex : Nat)
  | table (elemType : Nat) (limits : WasmLimits)
  | memory (limits : WasmLimits)
  | globalDesc (valType : Nat) (isMutable : Bool)
  | event (attr : Nat) (sigIndex : Nat)
deriving DecidableEq, Repr

/-- An import: module name, field name and kind-specific descriptor. -/
structure WasmImport where
  moduleName : List Nat
  fieldName : List Nat
  desc : ImportDesc
deriving DecidableEq, Repr

/-- Numeric kind of an import, matching the wire encoding. -/
def importKindNat (im : WasmImport) : Nat :=
  match im.desc with
  | .func _ => 0
  | .table _ _ => 1
  | .memory _ => 2
  | .globalDesc _ _ => 3
  | .event _ _ => 4

/-- A table: element type byte plus limits. -/
structure WasmTable where
  elemType : Nat
  limits : WasmLimits
deriving DecidableEq, Repr

/-- A defined global: value type, mutability, opaque initializer bytes. -/
structure WasmGlobal where
  valType : Nat
  isMutable : Bool
  initExpr : List Nat
deriving DecidableEq, Repr

/-- An event (exception tag): attribute plus signature index. -/
structure WasmEvent where
  attr : Nat
  sigIndex : Nat
deriving DecidableEq, Repr

/-- An export: name, kind byte and index into the kind index space. -/
structure WasmExport where
  name : List Nat
  kind : Nat
  index : Nat
deriving DecidableEq, Repr

/-- An element segment: table index, opaque offset expression and the list
of function indices. -/
structure WasmElemSegment where
  tableIndex : Nat
  offsetExpr : List Nat
  functions : List Nat
deriving DecidableEq, Repr

/-- A data segment: flag word, memory index, opaque offset expression and
raw payload. -/
structure WasmDataSegment where
  initFlags : Nat
  memoryIndex : Nat
  offsetExpr : List Nat
  content : List Nat
deriving DecidableEq, Repr

/-- A stored data segment together with its section-relative content
offset, as in the WasmSegment record of the header. -/
structure WasmSegment where
  sectionOffset : Nat
  data : WasmDataSegment
deriving DecidableEq, Repr

/-- A defined function body kept as an opaque byte range. -/
structure WasmFunction where
  body : List Nat
deriving DecidableEq, Repr

/-- A debug-name entry of the name custom section. -/
structure WasmFunctionName where
  index : Nat
  name : List Nat
deriving DecidableEq, Repr

/-- A relocation record: type code, offset into the target section,
referenced index and optional addend. -/
structure WasmRelocation where
  relocType : Nat
  offset : Nat
  index : Nat
  addend : Int
deriving DecidableEq, Repr

/-- A stored top-level section, standard or custom, as in the WasmSection
record of the header. -/
structure WasmSection where
  type : Nat
  offset : Nat
  name : List Nat
  content : List Nat
  relocations : List WasmRelocation
deriving DecidableEq, Repr

/-- Dynamic-linking information of the dylink custom section. -/
structure WasmDylinkInfo where
  memorySize : Nat
  memoryAlignment : Nat
  tableSize : Nat
  tableAlignment : Nat
  needed : List (List Nat)
deriving DecidableEq, Repr

/-- A symbol-table entry: kind byte, flag word, name bytes, element index
(or data-segment index), and the data-symbol offset and size. -/
structure WasmSymbolInfo where
  kind : Nat
  flags : Nat
  name : List Nat
  index : Nat
  dataOffset : Nat
  dataSize : Nat
deriving DecidableEq, Repr

/-- The decoded object model, mirroring the vectors and counters held by
the WasmObjectFile class in the header.  The start function is
initialised to the uint32 sentinel 4294967295 (uint32 of minus one). -/
structure WasmObjectFile where
  sections : List WasmSection := []
  dylinkInfo : Option WasmDylinkInfo := none
  signatures : List WasmSignature := []
  functionTypes : List Nat := []
  tables : List WasmTable := []
  memories : List WasmLimits := []
  globals : List WasmGlobal := []
  events : List WasmEvent := []
  imports : List WasmImport := []
  exports : List WasmExport := []
  elemSegments : List WasmElemSegment := []
  dataSegments : List WasmSegment := []
  dataCount : Option Nat := none
  functions : List WasmFunction := []
  symbols : List WasmSymbolInfo := []
  debugNames : List WasmFunctionName := []
  startFunction : Nat := 4294967295
  hasLinkingSection : Bool := false
  hasDylinkSection : Bool := false
  numImportedGlobals : Nat := 0
  numImportedFunctions : Nat := 0
  numImportedEvents : Nat := 0
deriving DecidableEq, Repr

/-- Size of the function index space: imported plus defined functions,
the defined count being the Function section length. -/
def funcBound (m : WasmObjectFile) : Nat :=
  m.numImportedFunctions + m.functionTypes.length

/-- Size of the global index space: imported plus defined globals. -/
def globalBound (m : WasmObjectFile) : Nat :=
  m.numImportedGlobals + m.globals.length

/-- Size of the event index space: imported plus defined events. -/
def eventBound (m : WasmObjectFile) : Nat :=
  m.numImportedEvents + m.events.length

/-- A function index is valid when below imported plus defined count. -/
def isValidFunctionIndex (m : WasmObjectFile) (i : Nat) : Bool :=
  i < funcBound m

/-- A function index denotes a defined function when it is valid and not
below the imported count. -/
def isDefinedFunctionIndex (m : WasmObjectFile) (i : Nat) : Bool :=
  m.numImportedFunctions ≤ i && isValidFunctionIndex m i

/-- A global index is valid when below imported plus defined count. -/
def isValidGlobalIndex (m : WasmObjectFile) (i : Nat) : Bool :=
  i < globalBound m

/-- A global index denotes a defined global when valid and not below the
imported count. -/
def isDefinedGlobalIndex (m : WasmObjectFile) (i : Nat) : Bool :=
  m.numImportedGlobals ≤ i && isValidGlobalIndex m i

/-- An event index is valid when below imported plus defined count. -/
def isValidEventIndex (m : WasmObjectFile) (i : Nat) : Bool :=
  i < eventBound m

/-- An event index denotes a defined event when valid and not below the
imported count. -/
def isDefinedEventIndex (m : WasmObjectFile) (i : Nat) : Bool :=
  m.numImportedEvents ≤ i && isValidEventIndex m i

/-- A symbol index is a valid function symbol when it names a symbol-table
entry of function kind. -/
def isValidFunctionSymbol (m : WasmObjectFile) (i : Nat) : Bool :=
  (m.symbols.get? i).elim false (fun s => s.kind == 0)

/-- A symbol index is a valid global symbol when it names a symbol-table
entry of global kind. -/
def isValidGlobalSymbol (m : WasmObjectFile) (i : Nat) : Bool :=
  (m.symbols.get? i).elim false (fun s => s.kind == 2)

/-- A symbol index is a valid event symbol when it names a symbol-table
entry of event kind. -/
def isValidEventSymbol (m : WasmObjectFile) (i : Nat) : Bool :=
  (m.symbols.get? i).elim false (fun s => s.kind == 4)

/-- A symbol index is a valid data symbol when it names a symbol-table
entry of data kind. -/
def isValidDataSymbol (m : WasmObjectFile) (i : Nat) : Bool :=
  (m.symbols.get? i).elim false (fun s => s.kind == 1)

/-- A symbol index is a valid section symbol when it names a symbol-table
entry of section kind. -/
def isValidSectionSymbol (m : WasmObjectFile) (i : Nat) : Bool :=
  (m.symbols.get? i).elim false (fun s => s.kind == 3)

/-! ## Section order validator

The slot numbering is the WasmSectionOrderChecker enumeration of the
header.  The DisallowedPredecessors matrix itself is defined in the
missing translation unit; it is modelled from the ordering policy of the
spec and the comments in the header (dylink first, linking after Data,
reloc after linking, name after linking, producers after name,
target_features after producers, core sections in their standard order,
no duplicate of any ordered slot). -/

def WASM_SEC_ORDER_NONE : Nat := 0

def WASM_SEC_ORDER_TYPE : Nat := 1

def WASM_SEC_ORDER_IMPORT : Nat := 2

def WASM_SEC_ORDER_FUNCTION : Nat := 3

def WASM_SEC_ORDER_TABLE : Nat := 4

def WASM_SEC_ORDER_MEMORY : Nat := 5

def WASM_SEC_ORDER_GLOBAL : Nat := 6

def WASM_SEC_ORDER_EVENT : Nat := 7

def WASM_SEC_ORDER_EXPORT : Nat := 8

def WASM_SEC_ORDER_START : Nat := 9

def WASM_SEC_ORDER_ELEM : Nat := 10

def WASM_SEC_ORDER_DATACOUNT : Nat := 11

def WASM_SEC_ORDER_CODE : Nat := 12

def WASM_SEC_ORDER_DATA : Nat := 13

def WASM_SEC_ORDER_DYLINK : Nat := 14

def WASM_SEC_ORDER_LINKING : Nat := 15

def WASM_SEC_ORDER_RELOC : Nat := 16

def WASM_SEC_ORDER_NAME : Nat := 17

def WASM_SEC_ORDER_PRODUCERS : Nat := 18

def WASM_SEC_ORDER_TARGET_FEATURES : Nat := 19

/-- Modelled from the spec: the DisallowedPredecessors matrix (its
definition is in the missing translation unit).  Each row lists the slots
that must not already have been seen when this slot appears; the rows
chain, so the check below takes their transitive closure. -/
def disallowedPredecessors : Nat → List Nat
  | 1 => [1, 2]
  | 2 => [2, 3]
  | 3 => [3, 4]
  | 4 => [4, 5]
  | 5 => [5, 6]
  | 6 => [6, 7]
  | 7 => [7, 8]
  | 8 => [8, 9]
  | 9 => [9, 10]
  | 10 => [10, 11]
  | 11 => [11, 12]
  | 12 => [12, 13]
  | 13 => [13, 15]
  | 14 => [14, 1]
  | 15 => [15, 16, 17]
  | 16 => []
  | 17 => [17, 18]
  | 18 => [18, 19]
  | 19 => [19]
  | _ => []

/-- Iterate one closure step: add the disallowed predecessors of every
slot already collected. -/
def closureStep (s : List Nat) : List Nat :=
  (s ++ s.flatMap disallowedPredecessors).dedup

def transClosureAux : Nat → List Nat → List Nat
  | 0, s => s
  | n + 1, s => transClosureAux n (closureStep s)

/-- The transitive set of disallowed predecessors of a slot, as computed
by the worklist in isValidSectionOrder. -/
def transDisallowed (slot : Nat) : List Nat :=
  transClosureAux 20 (disallowedPredecessors slot)

/-- Modelled from the spec: a slot may appear only when none of its
transitive disallowed predecessors has been seen. -/
def orderOk (seen : List Nat) (slot : Nat) : Bool :=
  (transDisallowed slot).all (fun p => !(decide (p ∈ seen)))

/-- Bytes of an ASCII string, for custom section names. -/
def strB (s : String) : List Nat := s.toList.map Char.toNat

/-- True when the first list is an initial segment of the second. -/
def startsWithBytes : List Nat → List Nat → Bool
  | [], _ => true
  | _ :: _, [] => false
  | a :: as, b :: bs => a == b && startsWithBytes as bs

/-- Modelled from the spec: map a section id (and custom name) to its
order slot; unordered and unknown sections get none. -/
def getSectionOrder (id : Nat) (name : List Nat) : Option Nat :=
  if id = 0 then
    if name = strB "dylink" then some 14
    else if name = strB "linking" then some 15
    else if startsWithBytes (strB "reloc.") name then some 16
    else if name = strB "name" then some 17
    else if name = strB "producers" then some 18
    else if name = strB "target_features" then some 19
    else none
  else if id = 1 then some 1
  else if id = 2 then some 2
  else if id = 3 then some 3
  else if id = 4 then some 4
  else if id = 5 then some 5
  else if id = 6 then some 6
  else if id = 7 then some 8
  else if id = 8 then some 9
  else if id = 9 then some 10
  else if id = 10 then some 12
  else if id = 11 then some 13
  else if id = 12 then some 11
  else if id = 13 then some 7
  else none

/-- Modelled from the spec: the transition of the order validator.  On a
recognised slot, reject when a transitively disallowed predecessor was
seen, otherwise mark the slot seen; unknown slots are always valid and
never recorded. -/
def checkOrder (seen : List Nat) (id : Nat) (name : List Nat) : Option (List Nat) :=
  match getSectionOrder id name with
  | none => some seen
  | some slot => if orderOk seen slot then some (slot :: seen) else none

/-! ## Counted record reader -/

/-- Modelled from the spec: read a ULEB128 count upstream, then this many
fixed-shape records with a single record reader. -/
def readN {α : Type} (f : List Nat → Except ParseError (α × List Nat)) :
    Nat → List Nat → Except ParseError (List α × List Nat)
  | 0, bytes => .ok ([], bytes)
  | n + 1, bytes =>
    match f bytes with
    | .error e => .error e
    | .ok (r, rest) =>
      match readN f n rest with
      | .error e => .error e
      | .ok (rs, rest2) => .ok (r :: rs, rest2)

/-! ## Record readers for the standard sections

Every reader is modelled from the spec: each decoder reads a count and
then fixed-shape records, validating embedded indices against the counts
known so far; an out-of-range cross-reference is an InvalidIndex error. -/

/-- Modelled from the spec: read one value type byte and reject unknown
value types. -/
def readValType (bytes : List Nat) : Except ParseError (Nat × List Nat) :=
  match readUint8 bytes with
  | .error e => .error e
  | .ok (t, r) =>
    if t = 127 ∨ t = 126 ∨ t = 125 ∨ t = 124 ∨ t = 123 then .ok (t, r)
    else .error (.malformed "invalid value type")

/-- Modelled from the spec: one signature record of the Type section:
form byte, parameter types, return types. -/
def readSigRec (bytes : List Nat) : Except ParseError (WasmSignature × List Nat) :=
  match readUint8 bytes with
  | .error e => .error e
  | .ok (form, r1) =>
    if form ≠ 96 then .error (.malformed "invalid signature type")
    else
      match readVaruint32 r1 with
      | .error e => .error e
      | .ok (nParams, r2) =>
        match readN readValType nParams r2 with
        | .error e => .error e
        | .ok (ps, r3) =>
          match readVaruint32 r3 with
          | .error e => .error e
          | .ok (nRets, r4) =>
            match readN readValType nRets r4 with
            | .error e => .error e
            | .ok (rets, r5) => .ok (⟨ps, rets⟩, r5)

/-- Modelled from the spec: limits record of a table or memory. -/
def readLimits (bytes : List Nat) : Except ParseError (WasmLimits × List Nat) :=
  match readVaruint32 bytes with
  | .error e => .error e
  | .ok (flags, r1) =>
    match readVaruint32 r1 with
    | .error e => .error e
    | .ok (initial, r2) =>
      if flags % 2 = 1 then
        match readVaruint32 r2 with
        | .error e => .error e
        | .ok (mx, r3) => .ok (⟨flags, initial, some mx⟩, r3)
      else .ok (⟨flags, initial, none⟩, r2)

/-- Modelled from the spec: one table record: funcref element type plus
limits. -/
def readTableRec (bytes : List Nat) : Except ParseError (WasmTable × List Nat) :=
  match readUint8 bytes with
  | .error e => .error e
  | .ok (et, r1) =>
    if et ≠ 112 then .error (.malformed "invalid table element type")
    else
      match readLimits r1 with
      | .error e => .error e
      | .ok (lim, r2) => .ok (⟨et, lim⟩, r2)

/-- Modelled from the spec: one import record: module name, field name,
kind byte and kind-specific descriptor; signature indices of function and
event imports are validated against the Type section. -/
def readImportRec (m : WasmObjectFile) (bytes : List Nat) :
    Except ParseError (WasmImport × List Nat) :=
  match readString bytes with
  | .error e => .error e
  | .ok (mod, r1) =>
    match readString r1 with
    | .error e => .error e
    | .ok (fld, r2) =>
      match readUint8 r2 with
      | .error e => .error e
      | .ok (kind, r3) =>
        if kind = 0 then
          match readVaruint32 r3 with
          | .error e => .error e
          | .ok (sig, r4) =>
            if sig < m.signatures.length then .ok (⟨mod, fld, .func sig⟩, r4)
            else .error (.invalidIndex "invalid function type index")
        else if kind = 1 then
          match readUint8 r3 with
          | .error e => .error e
          | .ok (et, r4) =>
            match readLimits r4 with
            | .error e => .error e
            | .ok (lim, r5) => .ok (⟨mod, fld, .table et lim⟩, r5)
        else if kind = 2 then
          match readLimits r3 with
          | .error e => .error e
          | .ok (lim, r4) => .ok (⟨mod, fld, .memory lim⟩, r4)
        else if kind = 3 then
          match readUint8 r3 with
          | .error e => .error e
          | .ok (ty, r4) =>
            match readUint8 r4 with
            | .error e => .error e
            | .ok (mu, r5) => .ok (⟨mod, fld, .globalDesc ty (mu == 1)⟩, r5)
        else if kind = 4 then
          match readVaruint32 r3 with
          | .error e => .error e
          | .ok (attr, r4) =>
            match readVaruint32 r4 with
            | .error e => .error e
            | .ok (sig, r5) =>
              if sig < m.signatures.length then .ok (⟨mod, fld, .event attr sig⟩, r5)
              else .error (.invalidIndex "invalid event type index")
        else .error (.malformed "unexpected import kind")

/-- Modelled from the spec: one Function section entry: a type index
validated against the Type section size. -/
def readFuncTypeRec (m : WasmObjectFile) (bytes : List Nat) :
    Except ParseError (Nat × List Nat) :=
  match readVaruint32 bytes with
  | .error e => .error e
  | .ok (sig, r) =>
    if sig < m.signatures.length then .ok (sig, r)
    else .error (.invalidIndex "invalid function type index")

/-- Modelled from the spec: one defined global: value type, mutability,
opaque initializer expression. -/
def readGlobalRec (bytes : List Nat) : Except ParseError (WasmGlobal × List Nat) :=
  match readUint8 bytes with
  | .error e => .error e
  | .ok (ty, r1) =>
    match readUint8 r1 with
    | .error e => .error e
    | .ok (mu, r2) =>
      match readInitExpr r2.length r2 with
      | .error e => .error e
      | .ok (ie, r3) => .ok (⟨ty, mu == 1, ie⟩, r3)

/-- Modelled from the spec: one event record: attribute plus signature
index validated against the Type section. -/
def readEventRec (m : WasmObjectFile) (bytes : List Nat) :
    Except ParseError (WasmEvent × List Nat) :=
  match readVaruint32 bytes with
  | .error e => .error e
  | .ok (attr, r1) =>
    match readVaruint32 r1 with
    | .error e => .error e
    | .ok (sig, r2) =>
      if sig < m.signatures.length then .ok (⟨attr, sig⟩, r2)
      else .error (.invalidIndex "invalid event type index")

/-- Validity of the index carried by an export for its kind: function,
global and event exports are validated against their index spaces. -/
def exportOkB (m : WasmObjectFile) (e : WasmExport) : Bool :=
  if e.kind = 0 then isValidFunctionIndex m e.index
  else if e.kind = 3 then isValidGlobalIndex m e.index
  else if e.kind = 4 then isValidEventIndex m e.index
  else true

/-- Modelled from the spec: one export record: name, kind byte, index;
the index is validated against the corresponding index space at the point
of reference. -/
def readExportRec (m : WasmObjectFile) (bytes : List Nat) :
    Except ParseError (WasmExport × List Nat) :=
  match readString bytes with
  | .error e => .error e
  | .ok (name, r1) =>
    match readUint8 r1 with
    | .error e => .error e
    | .ok (kind, r2) =>
      match readVaruint32 r2 with
      | .error e => .error e
      | .ok (idx, r3) =>
        if kind ≤ 4 then
          if exportOkB m ⟨name, kind, idx⟩ then .ok (⟨name, kind, idx⟩, r3)
          else .error (.invalidIndex "invalid export index")
        else .error (.malformed "unexpected export kind")

/-- Modelled from the spec: one function index inside an element segment,
validated against the function index space. -/
def readElemFuncIdx (m : WasmObjectFile) (bytes : List Nat) :
    Except ParseError (Nat × List Nat) :=
  match readVaruint32 bytes with
  | .error e => .error e
  | .ok (i, r) =>
    if isValidFunctionIndex m i then .ok (i, r)
    else .error (.invalidIndex "invalid function index in elem segment")

/-- Modelled from the spec: one element segment: table index validated
against the table count, opaque offset expression, then the validated
function index list. -/
def readElemRec (m : WasmObjectFile) (bytes : List Nat) :
    Except ParseError (WasmElemSegment × List Nat) :=
  match readVaruint32 bytes with
  | .error e => .error e
  | .ok (ti, r1) =>
    if ti < m.tables.length then
      match readInitExpr r1.length r1 with
      | .error e => .error e
      | .ok (off, r2) =>
        match readVaruint32 r2 with
        | .error e => .error e
        | .ok (cnt, r3) =>
          match readN (readElemFuncIdx m) cnt r3 with
          | .error e => .error e
          | .ok (fns, r4) => .ok (⟨ti, off, fns⟩, r4)
    else .error (.invalidIndex "invalid table index in elem segment")

/-- Modelled from the spec: one Code section entry: a size-prefixed body
stored as an opaque byte range, not further decoded. -/
def readCodeRec (bytes : List Nat) : Except ParseError (WasmFunction × List Nat) :=
  match readVaruint32 bytes with
  | .error e => .error e
  | .ok (size, r1) =>
    match takeBytes size r1 with
    | .error e => .error e
    | .ok (body, r2) => .ok (⟨body⟩, r2)

/-- Modelled from the spec: one data segment: flag word (0 active, 1
passive, 2 active with explicit memory index validated against the memory
count), offset expression for active segments, size-prefixed payload.
The section-relative offset of the payload is recorded, computed from the
declared body length baseLen. -/
def readDataSegRec (m : WasmObjectFile) (baseLen : Nat) (bytes : List Nat) :
    Except ParseError (WasmSegment × List Nat) :=
  match readVaruint32 bytes with
  | .error e => .error e
  | .ok (flags, r1) =>
    if flags = 0 then
      match readInitExpr r1.length r1 with
      | .error e => .error e
      | .ok (off, r2) =>
        match readVaruint32 r2 with
        | .error e => .error e
        | .ok (size, r3) =>
          match takeBytes size r3 with
          | .error e => .error e
          | .ok (content, r4) =>
            .ok (⟨baseLen - r3.length, ⟨flags, 0, off, content⟩⟩, r4)
    else if flags = 1 then
      match readVaruint32 r1 with
      | .error e => .error e
      | .ok (size, r2) =>
        match takeBytes size r2 with
        | .error e => .error e
        | .ok (content, r3) =>
          .ok (⟨baseLen - r2.length, ⟨flags, 0, [], content⟩⟩, r3)
    else if flags = 2 then
      match readVaruint32 r1 with
      | .error e => .error e
      | .ok (mi, r2) =>
        if mi < m.memories.length then
          match readInitExpr r2.length r2 with
          | .error e => .error e
          | .ok (off, r3) =>
            match readVaruint32 r3 with
            | .error e => .error e
            | .ok (size, r4) =>
              match takeBytes size r4 with
              | .error e => .error e
              | .ok (content, r5) =>
                .ok (⟨baseLen - r4.length, ⟨flags, mi, off, content⟩⟩, r5)
        else .error (.invalidIndex "invalid memory index in data segment")
    else .error (.malformed "invalid data segment flags")

/-! ## Standard section decoders -/

/-- Modelled from the spec: the Type section appends the decoded
signatures. -/
def parseTypeSection (m : WasmObjectFile) (b : List Nat) :
    Except ParseError (WasmObjectFile × List Nat) :=
  match readVaruint32 b with
  | .error e => .error e
  | .ok (count, r1) =>
    match readN readSigRec count r1 with
    | .error e => .error e
    | .ok (sigs, rest) => .ok ({m with signatures := m.signatures ++ sigs}, rest)

/-- Count of records of a given wire kind in an import list. -/
def importCountKind (ims : List WasmImport) (k : Nat) : Nat :=
  (ims.filter (fun im => importKindNat im == k)).length

/-- Modelled from the spec: appending imports bumps the per-kind imported
counters used by later index validation. -/
def applyImports (m : WasmObjectFile) (ims : List WasmImport) : WasmObjectFile :=
  {m with imports := m.imports ++ ims,
          numImportedFunctions := m.numImportedFunctions + importCountKind ims 0,
          numImportedGlobals := m.numImportedGlobals + importCountKind ims 3,
          numImportedEvents := m.numImportedEvents + importCountKind ims 4}

/-- Modelled from the spec: the Import section decoder. -/
def parseImportSection (m : WasmObjectFile) (b : List Nat) :
    Except ParseError (WasmObjectFile × List Nat) :=
  match readVaruint32 b with
  | .error e => .error e
  | .ok (count, r1) =>
    match readN (readImportRec m) count r1 with
    | .error e => .error e
    | .ok (ims, rest) => .ok (applyImports m ims, rest)

/-- Modelled from the spec: the Function section appends validated type
indices, fixing the defined-function count. -/
def parseFunctionSection (m : WasmObjectFile) (b : List Nat) :
    Except ParseError (WasmObjectFile × List Nat) :=
  match readVaruint32 b with
  | .error e => .error e
  | .ok (count, r1) =>
    match readN (readFuncTypeRec m) count r1 with
    | .error e => .error e
    | .ok (fts, rest) => .ok ({m with functionTypes := m.functionTypes ++ fts}, rest)

/-- Modelled from the spec: the Table section decoder. -/
def parseTableSection (m : WasmObjectFile) (b : List Nat) :
    Except ParseError (WasmObjectFile × List Nat) :=
  match readVaruint32 b with
  | .error e => .error e
  | .ok (count, r1) =>
    match readN readTableRec count r1 with
    | .error e => .error e
    | .ok (ts, rest) => .ok ({m with tables := m.tables ++ ts}, rest)

/-- Modelled from the spec: the Memory section decoder. -/
def parseMemorySection (m : WasmObjectFile) (b : List Nat) :
    Except ParseError (WasmObjectFile × List Nat) :=
  match readVaruint32 b with
  | .error e => .error e
  | .ok (count, r1) =>
    match readN readLimits count r1 with
    | .error e => .error e
    | .ok (ms, rest) => .ok ({m with memories := m.memories ++ ms}, rest)

/-- Modelled from the spec: the Global section decoder. -/
def parseGlobalSection (m : WasmObjectFile) (b : List Nat) :
    Except ParseError (WasmObjectFile × List Nat) :=
  match readVaruint32 b with
  | .error e => .error e
  | .ok (count, r1) =>
    match readN readGlobalRec count r1 with
    | .error e => .error e
    | .ok (gs, rest) => .ok ({m with globals := m.globals ++ gs}, rest)

/-- Modelled from the spec: the Event section decoder. -/
def parseEventSection (m : WasmObjectFile) (b : List Nat) :
    Except ParseError (WasmObjectFile × List Nat) :=
  match readVaruint32 b with
  | .error e => .error e
  | .ok (count, r1) =>
    match readN (readEventRec m) count r1 with
    | .error e => .error e
    | .ok (es, rest) => .ok ({m with events := m.events ++ es}, rest)

/-- Modelled from the spec: the Export section decoder. -/
def parseExportSection (m : WasmObjectFile) (b : List Nat) :
    Except ParseError (WasmObjectFile × List Nat) :=
  match readVaruint32 b with
  | .error e => .error e
  | .ok (count, r1) =>
    match readN (readExportRec m) count r1 with
    | .error e => .error e
    | .ok (exs, rest) => .ok ({m with exports := m.exports ++ exs}, rest)

/-- True when the index names a defined function whose signature is the
empty-to-empty signature. -/
def startSigOk (m : WasmObjectFile) (idx : Nat) : Bool :=
  match m.functionTypes.get? (idx - m.numImportedFunctions) with
  | none => false
  | some sigIdx =>
    match m.signatures.get? sigIdx with
    | none => false
    | some sig => sig.params.isEmpty && sig.returns.isEmpty

/-- Modelled from the spec: the Start section must reference a defined
function of signature from no arguments to no results; anything else is an
InvalidIndex error. -/
def parseStartSection (m : WasmObjectFile) (b : List Nat) :
    Except ParseError (WasmObjectFile × List Nat) :=
  match readVaruint32 b with
  | .error e => .error e
  | .ok (idx, r1) =>
    if isDefinedFunctionIndex m idx && startSigOk m idx then
      .ok ({m with startFunction := idx}, r1)
    else .error (.invalidIndex "invalid start function")

/-- Modelled from the spec: the Element section decoder. -/
def parseElemSection (m : WasmObjectFile) (b : List Nat) :
    Except ParseError (WasmObjectFile × List Nat) :=
  match readVaruint32 b with
  | .error e => .error e
  | .ok (count, r1) =>
    match readN (readElemRec m) count r1 with
    | .error e => .error e
    | .ok (segs, rest) => .ok ({m with elemSegments := m.elemSegments ++ segs}, rest)

/-- Modelled from the spec: the Code section entry count must equal the
defined-function count declared by the Function section; each entry is an
opaque body byte range. -/
def parseCodeSection (m : WasmObjectFile) (b : List Nat) :
    Except ParseError (WasmObjectFile × List Nat) :=
  match readVaruint32 b with
  | .error e => .error e
  | .ok (count, r1) =>
    if count ≠ m.functionTypes.length then .error (.malformed "invalid function count")
    else
      match readN readCodeRec count r1 with
      | .error e => .error e
      | .ok (fns, rest) => .ok ({m with functions := m.functions ++ fns}, rest)

/-- Modelled from the spec: the Data section decoder; when a Data-Count
section was present its recorded count must equal the segment count. -/
def parseDataSection (m : WasmObjectFile) (b : List Nat) :
    Except ParseError (WasmObjectFile × List Nat) :=
  match readVaruint32 b with
  | .error e => .error e
  | .ok (count, r1) =>
    match m.dataCount with
    | some n =>
      if count ≠ n then .error (.malformed "invalid data segment count")
      else
        match readN (readDataSegRec m b.length) count r1 with
        | .error e => .error e
        | .ok (segs, rest) =>
          .ok ({m with dataSegments := m.dataSegments ++ segs}, rest)
    | none =>
      match readN (readDataSegRec m b.length) count r1 with
      | .error e => .error e
      | .ok (segs, rest) =>
        .ok ({m with dataSegments := m.dataSegments ++ segs}, rest)

/-- Modelled from the spec: the Data-Count section records the declared
data segment count. -/
def parseDataCountSection (m : WasmObjectFile) (b : List Nat) :
    Except ParseError (WasmObjectFile × List Nat) :=
  match readVaruint32 b with
  | .error e => .error e
  | .ok (n, rest) => .ok ({m with dataCount := some n}, rest)

/-! ## Custom section decoders -/

/-- Symbol flag constants. Modelled from the spec: the binding, visibility
and undefined flag bits of the linking metadata (their numeric values live
in the BinaryFormat headers outside the provided sources). -/
def WASM_SYMBOL_BINDING_MASK : Nat := 3

def WASM_SYMBOL_BINDING_GLOBAL : Nat := 0

def WASM_SYMBOL_BINDING_WEAK : Nat := 1

def WASM_SYMBOL_BINDING_LOCAL : Nat := 2

def WASM_SYMBOL_VISIBILITY_MASK : Nat := 4

def WASM_SYMBOL_VISIBILITY_DEFAULT : Nat := 0

def WASM_SYMBOL_VISIBILITY_HIDDEN : Nat := 4

def WASM_SYMBOL_UNDEFINED : Nat := 16

/-- Field name of the k-th import of a given wire kind, used as the name
of an undefined symbol. -/
def importFieldName (m : WasmObjectFile) (kind : Nat) (idx : Nat) : List Nat :=
  (((m.imports.filter (fun im => importKindNat im == kind)).get? idx).map
    (fun im => im.fieldName)).getD []

/-- Validity of the element index carried by a symbol for its kind, as
checked during symbol decoding. -/
def symOkB (m : WasmObjectFile) (s : WasmSymbolInfo) : Bool :=
  if s.kind = 0 then isValidFunctionIndex m s.index
  else if s.kind = 2 then isValidGlobalIndex m s.index
  else if s.kind = 4 then isValidEventIndex m s.index
  else true

/-- Modelled from the spec: a function, global or event symbol: an
element index cross-validated against the index space given by validIdx,
whose defined flag must agree with the imported-versus-defined position
of the index (definedIdx); defined symbols carry an explicit name while
undefined ones take the field name of their import. -/
def readElemSymbol (m : WasmObjectFile) (kind flags : Nat)
    (validIdx definedIdx : Nat → Bool) (importKind : Nat) (r2 : List Nat) :
    Except ParseError (WasmSymbolInfo × List Nat) :=
  match readVaruint32 r2 with
  | .error e => .error e
  | .ok (idx, r3) =>
    if validIdx idx && ((Nat.land flags WASM_SYMBOL_UNDEFINED == 0) == definedIdx idx) then
      if Nat.land flags WASM_SYMBOL_UNDEFINED == 0 then
        match readString r3 with
        | .error e => .error e
        | .ok (name, r4) => .ok (⟨kind, flags, name, idx, 0, 0⟩, r4)
      else .ok (⟨kind, flags, importFieldName m importKind idx, idx, 0, 0⟩, r3)
    else .error (.invalidIndex "invalid symbol element index")

/-- Modelled from the spec: one symbol-table entry, decoded per its kind.
Data symbols carry a name and, when defined, a validated segment index
with offset and size.  Section symbols carry a validated section index. -/
def readSymbolRec (m : WasmObjectFile) (bytes : List Nat) :
    Except ParseError (WasmSymbolInfo × List Nat) :=
  match readUint8 bytes with
  | .error e => .error e
  | .ok (kind, r1) =>
    match readVaruint32 r1 with
    | .error e => .error e
    | .ok (flags, r2) =>
      if kind = 0 then
        readElemSymbol m 0 flags (isValidFunctionIndex m) (isDefinedFunctionIndex m) 0 r2
      else if kind = 2 then
        readElemSymbol m 2 flags (isValidGlobalIndex m) (isDefinedGlobalIndex m) 3 r2
      else if kind = 4 then
        readElemSymbol m 4 flags (isValidEventIndex m) (isDefinedEventIndex m) 4 r2
      else if kind = 1 then
        match readString r2 with
        | .error e => .error e
        | .ok (name, r3) =>
          if Nat.land flags WASM_SYMBOL_UNDEFINED == 0 then
            match readVaruint32 r3 with
            | .error e => .error e
            | .ok (seg, r4) =>
              if seg < m.dataSegments.length then
                match readVaruint32 r4 with
                | .error e => .error e
                | .ok (off, r5) =>
                  match readVaruint32 r5 with
                  | .error e => .error e
                  | .ok (sz, r6) => .ok (⟨kind, flags, name, seg, off, sz⟩, r6)
              else .error (.invalidIndex "invalid data symbol segment index")
          else .ok (⟨kind, flags, name, 0, 0, 0⟩, r3)
      else if kind = 3 then
        match readVaruint32 r2 with
        | .error e => .error e
        | .ok (idx, r3) =>
          if idx < m.sections.length then .ok (⟨kind, flags, [], idx, 0, 0⟩, r3)
          else .error (.invalidIndex "invalid section symbol index")
      else .error (.malformed "invalid symbol type")

/-- Modelled from the spec: the symbol table subsection of the linking
section appends the decoded symbols. -/
def parseLinkingSectionSymtab (m : WasmObjectFile) (b : List Nat) :
    Except ParseError (WasmObjectFile × List Nat) :=
  match readVaruint32 b with
  | .error e => .error e
  | .ok (count, r1) =>
    match readN (readSymbolRec m) count r1 with
    | .error e => .error e
    | .ok (syms, rest) => .ok ({m with symbols := m.symbols ++ syms}, rest)

/-- Modelled from the spec: the subsection loop of the linking section:
size-framed subsections, the symbol table decoded, other subsection types
skipped; a subsection body must be consumed exactly. -/
def parseLinkingSubsections (m : WasmObjectFile) :
    Nat → List Nat → Except ParseError WasmObjectFile
  | _, [] => .ok m
  | 0, _ :: _ => .error (.malformed "linking subsection fuel exhausted")
  | fuel + 1, t :: rest =>
    match readVaruint32 rest with
    | .error e => .error e
    | .ok (size, r1) =>
      match takeBytes size r1 with
      | .error e => .error e
      | .ok (payload, r2) =>
        if t % 256 = 8 then
          match parseLinkingSectionSymtab m payload with
          | .error e => .error e
          | .ok (m1, leftover) =>
            if leftover = [] then parseLinkingSubsections m1 fuel r2
            else .error (.malformed "symbol table size mismatch")
        else parseLinkingSubsections m fuel r2

/-- Modelled from the spec: the linking custom section: metadata version 2
followed by subsections. -/
def parseLinkingSection (m : WasmObjectFile) (b : List Nat) :
    Except ParseError (WasmObjectFile × List Nat) :=
  match readVaruint32 b with
  | .error e => .error e
  | .ok (version, r1) =>
    if version ≠ 2 then .error (.unsupportedVersion "unexpected metadata version")
    else
      match parseLinkingSubsections {m with hasLinkingSection := true} r1.length r1 with
      | .error e => .error e
      | .ok m2 => .ok (m2, [])

/-- Validity of one relocation record against the decoded symbol table,
signatures and the target section length. -/
def relocOkB (m : WasmObjectFile) (secLen : Nat) (ty off idx : Nat) : Bool :=
  (off ≤ secLen) &&
  (if ty = 0 ∨ ty = 1 ∨ ty = 2 ∨ ty = 8 then isValidFunctionSymbol m idx
   else if ty = 3 ∨ ty = 4 ∨ ty = 5 then isValidDataSymbol m idx
   else if ty = 6 then idx < m.signatures.length
   else if ty = 7 then isValidGlobalSymbol m idx
   else if ty = 9 then isValidSectionSymbol m idx
   else if ty = 10 then isValidEventSymbol m idx
   else true)

/-- True when the relocation type carries an explicit addend. -/
def relocHasAddend (ty : Nat) : Bool :=
  ty = 3 ∨ ty = 4 ∨ ty = 5 ∨ ty = 8 ∨ ty = 9

/-- Modelled from the spec: one relocation record: type, offset, index,
optional addend; the index is validated in the already-decoded symbol
table (or signature array for type relocations) and the offset must lie
within the target section content. -/
def readRelocRec (m : WasmObjectFile) (secLen : Nat) (bytes : List Nat) :
    Except ParseError (WasmRelocation × List Nat) :=
  match readVaruint32 bytes with
  | .error e => .error e
  | .ok (ty, r1) =>
    if ty ≤ 10 then
      match readVaruint32 r1 with
      | .error e => .error e
      | .ok (off, r2) =>
        match readVaruint32 r2 with
        | .error e => .error e
        | .ok (idx, r3) =>
          if relocOkB m secLen ty off idx then
            if relocHasAddend ty then
              match readVarint32 r3 with
              | .error e => .error e
              | .ok (ad, r4) => .ok (⟨ty, off, idx, ad⟩, r4)
            else .ok (⟨ty, off, idx, 0⟩, r3)
          else .error (.invalidIndex "invalid relocation entry")
    else .error (.malformed "invalid relocation type")

/-- Attach decoded relocations to the stored target section. -/
def attachRelocs (m : WasmObjectFile) (i : Nat) (rs : List WasmRelocation) :
    WasmObjectFile :=
  match m.sections.get? i with
  | none => m
  | some sec =>
    {m with sections := m.sections.set i {sec with relocations := sec.relocations ++ rs}}

/-- Modelled from the spec: a reloc custom section names a target section
by index and appends validated relocation records to it. -/
def parseRelocSection (m : WasmObjectFile) (b : List Nat) :
    Except ParseError (WasmObjectFile × List Nat) :=
  match readVaruint32 b with
  | .error e => .error e
  | .ok (secIdx, r1) =>
    match m.sections.get? secIdx with
    | none => .error (.malformed "invalid section index")
    | some target =>
      match readVaruint32 r1 with
      | .error e => .error e
      | .ok (count, r2) =>
        match readN (readRelocRec m target.content.length) count r2 with
        | .error e => .error e
        | .ok (rs, rest) => .ok (attachRelocs m secIdx rs, rest)

/-- Modelled from the spec: one debug-name entry: a function index
validated against the total function count, then the name. -/
def readNameRec (m : WasmObjectFile) (bytes : List Nat) :
    Except ParseError (WasmFunctionName × List Nat) :=
  match readVaruint32 bytes with
  | .error e => .error e
  | .ok (idx, r1) =>
    if isValidFunctionIndex m idx then
      match readString r1 with
      | .error e => .error e
      | .ok (name, r2) => .ok (⟨idx, name⟩, r2)
    else .error (.invalidIndex "invalid name entry")

/-- Modelled from the spec: the function-names subsection of the name
section. -/
def parseFunctionNames (m : WasmObjectFile) (b : List Nat) :
    Except ParseError (WasmObjectFile × List Nat) :=
  match readVaruint32 b with
  | .error e => .error e
  | .ok (count, r1) =>
    match readN (readNameRec m) count r1 with
    | .error e => .error e
    | .ok (ns, rest) => .ok ({m with debugNames := m.debugNames ++ ns}, rest)

/-- Modelled from the spec: the subsection loop of the name section. -/
def parseNameSubsections (m : WasmObjectFile) :
    Nat → List Nat → Except ParseError WasmObjectFile
  | _, [] => .ok m
  | 0, _ :: _ => .error (.malformed "name subsection fuel exhausted")
  | fuel + 1, t :: rest =>
    match readVaruint32 rest with
    | .error e => .error e
    | .ok (size, r1) =>
      match takeBytes size r1 with
      | .error e => .error e
      | .ok (payload, r2) =>
        if t % 256 = 1 then
          match parseFunctionNames m payload with
          | .error e => .error e
          | .ok (m1, leftover) =>
            if leftover = [] then parseNameSubsections m1 fuel r2
            else .error (.malformed "name subsection size mismatch")
        else parseNameSubsections m fuel r2

/-- Modelled from the spec: the name custom section. -/
def parseNameSection (m : WasmObjectFile) (b : List Nat) :
    Except ParseError (WasmObjectFile × List Nat) :=
  match parseNameSubsections m b.length b with
  | .error e => .error e
  | .ok m1 => .ok (m1, [])

/-- Modelled from the spec: the dylink custom section: four layout words
and the needed-library list, set once; a duplicate occurrence is a
DuplicateSection error. -/
def parseDylinkSection (m : WasmObjectFile) (b : List Nat) :
    Except ParseError (WasmObjectFile × List Nat) :=
  if m.hasDylinkSection then .error (.duplicateSection "dylink")
  else
    match readVaruint32 b with
    | .error e => .error e
    | .ok (memSize, r1) =>
      match readVaruint32 r1 with
      | .error e => .error e
      | .ok (memAlign, r2) =>
        match readVaruint32 r2 with
        | .error e => .error e
        | .ok (tabSize, r3) =>
          match readVaruint32 r3 with
          | .error e => .error e
          | .ok (tabAlign, r4) =>
            match readVaruint32 r4 with
            | .error e => .error e
            | .ok (count, r5) =>
              match readN readString count r5 with
              | .error e => .error e
              | .ok (needed, rest) =>
                .ok ({m with hasDylinkSection := true,
                             dylinkInfo := some ⟨memSize, memAlign, tabSize, tabAlign, needed⟩},
                     rest)

/-- Modelled from the spec: dispatch of a custom section by name; the
producers, target_features and vendor extension sections carry no
cross-section validation and are stored verbatim, as are unknown custom
sections. -/
def parseCustomSection (m : WasmObjectFile) (name : List Nat) (payload : List Nat) :
    Except ParseError (WasmObjectFile × List Nat) :=
  if name = strB "dylink" then parseDylinkSection m payload
  else if name = strB "linking" then parseLinkingSection m payload
  else if startsWithBytes (strB "reloc.") name then parseRelocSection m payload
  else if name = strB "name" then parseNameSection m payload
  else .ok (m, [])

/-! ## Section dispatcher and top-level decode -/

/-- Modelled from the spec: route a section body to the decoder for its
id (custom sections by name); unknown ids are a Malformed error. -/
def runSectionDecoder (m : WasmObjectFile) (id : Nat) (name : List Nat)
    (payload : List Nat) : Except ParseError (WasmObjectFile × List Nat) :=
  match id with
  | 0 => parseCustomSection m name payload
  | 1 => parseTypeSection m payload
  | 2 => parseImportSection m payload
  | 3 => parseFunctionSection m payload
  | 4 => parseTableSection m payload
  | 5 => parseMemorySection m payload
  | 6 => parseGlobalSection m payload
  | 7 => parseExportSection m payload
  | 8 => parseStartSection m payload
  | 9 => parseElemSection m payload
  | 10 => parseCodeSection m payload
  | 11 => parseDataSection m payload
  | 12 => parseDataCountSection m payload
  | 13 => parseEventSection m payload
  | _ => .error (.malformed "invalid section type")

/-- Modelled from the spec: a custom section body begins with its
length-prefixed name; other sections have no name. -/
def stripCustomName (id : Nat) (body : List Nat) :
    Except ParseError (List Nat × List Nat) :=
  if id = 0 then readString body else .ok ([], body)

/-- Store a decoded section record, standard or custom, uniformly. -/
def appendSection (m : WasmObjectFile) (id : Nat) (name : List Nat)
    (body : List Nat) (off : Nat) : WasmObjectFile :=
  {m with sections := m.sections ++ [⟨id, off, name, body, []⟩]}

/-- Modelled from the spec: handle one framed section: extract the custom
name, consult the order validator, dispatch the payload to its decoder,
verify the decoder consumed the body exactly (any remaining bytes are a
Malformed error), and store the section record. -/
def parseSection (m : WasmObjectFile) (seen : List Nat) (off : Nat) (id : Nat)
    (body : List Nat) : Except ParseError (WasmObjectFile × List Nat) :=
  match stripCustomName id body with
  | .error e => .error e
  | .ok (name, payload) =>
    match checkOrder seen id name with
    | none => .error .invalidSectionOrder
    | some seen1 =>
      match runSectionDecoder m id name payload with
      | .error e => .error e
      | .ok (m1, leftover) =>
        if leftover = [] then .ok (appendSection m1 id name body off, seen1)
        else .error (.malformed "section size mismatch")

/-- Modelled from the spec: the top-level loop: while bytes remain, read a
one-byte section id and a ULEB128 length, slice exactly that many body
bytes (a declared size past the end of the buffer is a Malformed error)
and parse the section. -/
def parseSections (m : WasmObjectFile) (seen : List Nat) (pos : Nat) :
    Nat → List Nat → Except ParseError WasmObjectFile
  | _, [] => .ok m
  | 0, _ :: _ => .error (.malformed "section loop fuel exhausted")
  | fuel + 1, idByte :: rest =>
    match readVaruint32 rest with
    | .error e => .error e
    | .ok (size, r1) =>
      match takeBytes size r1 with
      | .error e => .error e
      | .ok (body, r2) =>
        match parseSection m seen pos (idByte % 256) body with
        | .error e => .error e
        | .ok (m1, seen1) =>
          parseSections m1 seen1 (pos + (1 + rest.length - r2.length)) fuel r2

/-- Modelled from the spec: decode one module buffer: the 4-byte magic and
the 4-byte version 1, then the section sequence; the outcome is either the
fully populated model or the first structural error. -/
def decode (bytes : List Nat) : Except ParseError WasmObjectFile :=
  match takeBytes 4 bytes with
  | .error _ => .error (.malformed "truncated magic")
  | .ok (magic, r1) =>
    if magic.map (fun b => b % 256) ≠ [0, 97, 115, 109] then
      .error (.malformed "bad magic number")
    else
      match takeBytes 4 r1 with
      | .error _ => .error (.malformed "truncated version")
      | .ok (ver, r2) =>
        if ver.map (fun b => b % 256) ≠ [1, 0, 0, 0] then
          .error (.malformed "bad version number")
        else parseSections {} [] 8 r2.length r2

/-! ## WasmSymbol flag predicates

These follow the inline member functions of WasmSymbol in the header
directly; only the numeric flag constants are modelled from the spec. -/

/-- Binding bits of a symbol flag word, as in WasmSymbol of the header. -/
def getBinding (flags : Nat) : Nat := Nat.land flags WASM_SYMBOL_BINDING_MASK

/-- Visibility bits of a symbol flag word, as in WasmSymbol of the
header. -/
def getVisibility (flags : Nat) : Nat := Nat.land flags WASM_SYMBOL_VISIBILITY_MASK

/-- True when the undefined flag bit is set, as in WasmSymbol of the
header. -/
def isUndefined (flags : Nat) : Bool := Nat.land flags WASM_SYMBOL_UNDEFINED != 0

/-- Negation of isUndefined, as in WasmSymbol of the header. -/
def isDefined (flags : Nat) : Bool := !(isUndefined flags)

/-- True when the binding bits equal the weak binding constant. -/
def isBindingWeak (flags : Nat) : Bool := getBinding flags == WASM_SYMBOL_BINDING_WEAK

/-- True when the binding bits equal the global binding constant. -/
def isBindingGlobal (flags : Nat) : Bool := getBinding flags == WASM_SYMBOL_BINDING_GLOBAL

/-- True when the binding bits equal the local binding constant. -/
def isBindingLocal (flags : Nat) : Bool := getBinding flags == WASM_SYMBOL_BINDING_LOCAL

/-- True when the visibility bits equal the hidden visibility constant. -/
def isHidden (flags : Nat) : Bool := getVisibility flags == WASM_SYMBOL_VISIBILITY_HIDDEN

/-! ## Index-space invariant of the decoded model -/

/-- Section type bytes of the stored section records. -/
def typesOf (l : List WasmSection) : List Nat := l.map (fun s => s.type)

/-- The index carried by an export is inside its kind index space. -/
def exportGood (m : WasmObjectFile) (e : WasmExport) : Prop :=
  (e.kind = 0 → e.index < funcBound m) ∧
  (e.kind = 3 → e.index < globalBound m) ∧
  (e.kind = 4 → e.index < eventBound m)

/-- The element index carried by a symbol is inside its kind index
space. -/
def symGood (m : WasmObjectFile) (s : WasmSymbolInfo) : Prop :=
  (s.kind = 0 → s.index < funcBound m) ∧
  (s.kind = 2 → s.index < globalBound m) ∧
  (s.kind = 4 → s.index < eventBound m)

/-- Every function, global and event index stored in the model (exports,
element segments, symbols, start function, debug names) is strictly below
the imported-plus-defined count of its index space. -/
def goodModel (m : WasmObjectFile) : Prop :=
  (∀ e ∈ m.exports, exportGood m e) ∧
  (∀ seg ∈ m.elemSegments, ∀ i ∈ seg.functions, i < funcBound m) ∧
  (∀ s ∈ m.symbols, symGood m s) ∧
  (m.startFunction = 4294967295 ∨ m.startFunction < funcBound m) ∧
  (∀ n ∈ m.debugNames, n.index < funcBound m)

/-- What every section decoder except the Start decoder guarantees:
the start function and the stored section types are unchanged and the
index-space invariant is preserved. -/
def stepOK (m m' : WasmObjectFile) : Prop :=
  m'.startFunction = m.startFunction ∧
  typesOf m'.sections = typesOf m.sections ∧
  (goodModel m → goodModel m')

/-- Invariant carried through the section loop: the index-space invariant
holds, and the start function is still the sentinel unless a Start
section record has been stored. -/
def Inv (m : WasmObjectFile) : Prop :=
  goodModel m ∧ (m.startFunction = 4294967295 ∨ 8 ∈ typesOf m.sections)

/-! ## Concrete modules used to exercise the decoder -/

/-- Frame a standard section: id byte, one-byte ULEB length, body. -/
def mkSec (id : Nat) (body : List Nat) : List Nat := id :: body.length :: body

/-- Frame a custom section: id 0, length, length-prefixed name, payload. -/
def mkCustom (name : String) (payload : List Nat) : List Nat :=
  mkSec 0 ((strB name).length :: strB name ++ payload)

/-- The 4-byte magic and 4-byte version-1 header. -/
def hdr : List Nat := [0, 97, 115, 109, 1, 0, 0, 0]

/-- A module of exactly the magic and version and no sections. -/
def minimalModule : List Nat := hdr

/-- An empty Type section. -/
def typeSecEmpty : List Nat := mkSec 1 [0]

/-- A linking custom section with metadata version 2 and no subsections. -/
def linkingSec : List Nat := mkCustom "linking" [2]

/-- A reloc custom section targeting section index 0 with zero entries. -/
def relocSec : List Nat := mkCustom "reloc.CODE" [0, 0]

/-- Type section, then linking, then the reloc section referencing the
symbol table: the required order. -/
def goodOrderModule : List Nat := hdr ++ typeSecEmpty ++ linkingSec ++ relocSec

/-- The same three sections with the reloc section before linking. -/
def badOrderModule : List Nat := hdr ++ typeSecEmpty ++ relocSec ++ linkingSec

/-- A module with one empty signature, one imported function, one defined
function, an export of the defined function, a Start section naming it,
and its code body. -/
def demoModule : List Nat := hdr
  ++ mkSec 1 [1, 96, 0, 0]
  ++ mkSec 2 [1, 1, 101, 1, 102, 0, 0]
  ++ mkSec 3 [1, 0]
  ++ mkSec 7 [1, 1, 103, 0, 1]
  ++ mkSec 8 [1]
  ++ mkSec 10 [1, 2, 0, 11]

/-- A state with one imported function and one defined function of the
empty signature, as left by the Type, Import and Function sections. -/
def startStateDemo : WasmObjectFile :=
  { numImportedFunctions := 1, functionTypes := [0], signatures := [⟨[], []⟩] }

/-- A state whose Function section declared one defined function. -/
def codeStateDemo : WasmObjectFile := { functionTypes := [0] }

/-- A state whose Data-Count section recorded one segment. -/
def dataStateDemo : WasmObjectFile := { dataCount := some 1 }

theorem readN_length {α : Type} (f : List Nat → Except ParseError (α × List Nat)) :
    ∀ (n : Nat) (bytes : List Nat) (rs : List α) (rest : List Nat),
      readN f n bytes = .ok (rs, rest) → rs.length = n := by
  intro n
  induction n with
  | zero =>
    intro bytes rs rest h
    unfold readN at h
    simp only [Except.ok.injEq, Prod.mk.injEq] at h
    obtain ⟨h1, _⟩ := h
    simp [← h1]
  | succ k ih =>
    intro bytes rs rest h
    unfold readN at h
    cases hf1 : f bytes with
    | error e => simp [hf1] at h
    | ok pr =>
      obtain ⟨r, rest1⟩ := pr
      cases hrec : readN f k rest1 with
      | error e => simp [hf1, hrec] at h
      | ok pr2 =>
        obtain ⟨rs2, rest2⟩ := pr2
        simp only [hf1, hrec, Except.ok.injEq, Prod.mk.injEq] at h
        obtain ⟨h1, _⟩ := h
        subst h1
        simp [ih rest1 rs2 rest2 hrec]

theorem readN_forall {α : Type} (f : List Nat → Except ParseError (α × List Nat))
    (P : α → Prop)
    (hf : ∀ b r rest, f b = .ok (r, rest) → P r) :
    ∀ (n : Nat) (bytes : List Nat) (rs : List α) (rest : List Nat),
      readN f n bytes = .ok (rs, rest) → ∀ r ∈ rs, P r := by
  intro n
  induction n with
  | zero =>
    intro bytes rs rest h
    unfold readN at h
    simp only [Except.ok.injEq, Prod.mk.injEq] at h
    obtain ⟨h1, _⟩ := h
    subst h1
    intro r hr
    exact absurd hr (by simp)
  | succ k ih =>
    intro bytes rs rest h
    unfold readN at h
    cases hf1 : f bytes with
    | error e => simp [hf1] at h
    | ok pr =>
      obtain ⟨r, rest1⟩ := pr
      cases hrec : readN f k rest1 with
      | error e => simp [hf1, hrec] at h
      | ok pr2 =>
        obtain ⟨rs2, rest2⟩ := pr2
        simp only [hf1, hrec, Except.ok.injEq, Prod.mk.injEq] at h
        obtain ⟨h1, _⟩ := h
        subst h1
        intro x hx
        rcases List.mem_cons.mp hx with hx | hx
        · subst hx; exact hf _ _ _ hf1
        · exact ih rest1 rs2 rest2 hrec x hx

theorem goodModel_mono {m m' : WasmObjectFile}
    (he : m'.exports = m.exports) (hel : m'.elemSegments = m.elemSegments)
    (hs : m'.symbols = m.symbols) (hst : m'.startFunction = m.startFunction)
    (hd : m'.debugNames = m.debugNames)
    (hf : funcBound m ≤ funcBound m') (hg : globalBound m ≤ globalBound m')
    (hev : eventBound m ≤ eventBound m')
    (hgood : goodModel m) : goodModel m' := by
  obtain ⟨g1, g2, g3, g4, g5⟩ := hgood
  refine ⟨?_, ?_, ?_, ?_, ?_⟩
  · rw [he]
    intro e hee
    obtain ⟨a1, a2, a3⟩ := g1 e hee
    exact ⟨fun hk => lt_of_lt_of_le (a1 hk) hf, fun hk => lt_of_lt_of_le (a2 hk) hg,
      fun hk => lt_of_lt_of_le (a3 hk) hev⟩
  · rw [hel]
    intro seg hseg i hi
    exact lt_of_lt_of_le (g2 seg hseg i hi) hf
  · rw [hs]
    intro s hss
    obtain ⟨a1, a2, a3⟩ := g3 s hss
    exact ⟨fun hk => lt_of_lt_of_le (a1 hk) hf, fun hk => lt_of_lt_of_le (a2 hk) hg,
      fun hk => lt_of_lt_of_le (a3 hk) hev⟩
  · rw [hst]
    rcases g4 with h4 | h4
    · exact Or.inl h4
    · exact Or.inr (lt_of_lt_of_le h4 hf)
  · rw [hd]
    intro n hn
    exact lt_of_lt_of_le (g5 n hn) hf

theorem stepOK_refl (m : WasmObjectFile) : stepOK m m :=
  ⟨rfl, rfl, fun h => h⟩

theorem stepOK_trans {m1 m2 m3 : WasmObjectFile}
    (h1 : stepOK m1 m2) (h2 : stepOK m2 m3) : stepOK m1 m3 :=
  ⟨h2.1.trans h1.1, h2.2.1.trans h1.2.1, fun h => h2.2.2 (h1.2.2 h)⟩

theorem stepOK_of_update {m m' : WasmObjectFile}
    (he : m'.exports = m.exports) (hel : m'.elemSegments = m.elemSegments)
    (hs : m'.symbols = m.symbols) (hst : m'.startFunction = m.startFunction)
    (hd : m'.debugNames = m.debugNames)
    (hsec : typesOf m'.sections = typesOf m.sections)
    (hf : funcBound m ≤ funcBound m') (hg : globalBound m ≤ globalBound m')
    (hev : eventBound m ≤ eventBound m') : stepOK m m' :=
  ⟨hst, hsec, goodModel_mono he hel hs hst hd hf hg hev⟩

theorem exportOkB_good {m : WasmObjectFile} {e : WasmExport}
    (h : exportOkB m e = true) : exportGood m e := by
  unfold exportOkB at h
  unfold exportGood
  split_ifs at h with h0 h3 h4 <;>
    simp_all [isValidFunctionIndex, isValidGlobalIndex, isValidEventIndex]

theorem symOkB_good {m : WasmObjectFile} {s : WasmSymbolInfo}
    (h : symOkB m s = true) : symGood m s := by
  unfold symOkB at h
  unfold symGood
  split_ifs at h with h0 h2 h4 <;>
    simp_all [isValidFunctionIndex, isValidGlobalIndex, isValidEventIndex]

theorem stepOK_addExports (m : WasmObjectFile) (new : List WasmExport)
    (hok : ∀ e ∈ new, exportOkB m e = true) :
    stepOK m {m with exports := m.exports ++ new} := by
  refine ⟨rfl, rfl, fun hgood => ?_⟩
  obtain ⟨g1, g2, g3, g4, g5⟩ := hgood
  refine ⟨?_, g2, g3, g4, g5⟩
  intro e hee
  rcases List.mem_append.mp hee with hee | hee
  · exact g1 e hee
  · exact exportOkB_good (hok e hee)

theorem stepOK_addElems (m : WasmObjectFile) (new : List WasmElemSegment)
    (hok : ∀ seg ∈ new, ∀ i ∈ seg.functions, i < funcBound m) :
    stepOK m {m with elemSegments := m.elemSegments ++ new} := by
  refine ⟨rfl, rfl, fun hgood => ?_⟩
  obtain ⟨g1, g2, g3, g4, g5⟩ := hgood
  refine ⟨g1, ?_, g3, g4, g5⟩
  intro seg hseg
  rcases List.mem_append.mp hseg with hseg | hseg
  · exact g2 seg hseg
  · exact hok seg hseg

theorem stepOK_addSyms (m : WasmObjectFile) (new : List WasmSymbolInfo)
    (hok : ∀ s ∈ new, symOkB m s = true) :
    stepOK m {m with symbols := m.symbols ++ new} := by
  refine ⟨rfl, rfl, fun hgood => ?_⟩
  obtain ⟨g1, g2, g3, g4, g5⟩ := hgood
  refine ⟨g1, g2, ?_, g4, g5⟩
  intro s hss
  rcases List.mem_append.mp hss with hss | hss
  · exact g3 s hss
  · exact symOkB_good (hok s hss)

theorem stepOK_addNames (m : WasmObjectFile) (new : List WasmFunctionName)
    (hok : ∀ n ∈ new, n.index < funcBound m) :
    stepOK m {m with debugNames := m.debugNames ++ new} := by
  refine ⟨rfl, rfl, fun hgood => ?_⟩
  obtain ⟨g1, g2, g3, g4, g5⟩ := hgood
  refine ⟨g1, g2, g3, g4, ?_⟩
  intro n hn
  rcases List.mem_append.mp hn with hn | hn
  · exact g5 n hn
  · exact hok n hn

theorem readExportRec_ok {m : WasmObjectFile} {b : List Nat} {e : WasmExport}
    {r : List Nat} (h : readExportRec m b = .ok (e, r)) : exportOkB m e = true := by
  unfold readExportRec at h
  cases h1 : readString b with
  | error e1 => simp [h1] at h
  | ok pr1 =>
    obtain ⟨name, r1⟩ := pr1
    cases h2 : readUint8 r1 with
    | error e2 => simp [h1, h2] at h
    | ok pr2 =>
      obtain ⟨kind, r2⟩ := pr2
      cases h3 : readVaruint32 r2 with
      | error e3 => simp [h1, h2, h3] at h
      | ok pr3 =>
        obtain ⟨idx, r3⟩ := pr3
        simp only [h1, h2, h3] at h
        split_ifs at h with hk hok
        simp only [Except.ok.injEq, Prod.mk.injEq] at h
        obtain ⟨hm, _⟩ := h
        subst hm
        exact hok

theorem readElemFuncIdx_ok {m : WasmObjectFile} {b : List Nat} {i : Nat}
    {r : List Nat} (h : readElemFuncIdx m b = .ok (i, r)) : i < funcBound m := by
  unfold readElemFuncIdx at h
  cases h1 : readVaruint32 b with
  | error e1 => simp [h1] at h
  | ok pr1 =>
    obtain ⟨j, r1⟩ := pr1
    simp only [h1] at h
    split_ifs at h with hv
    simp only [Except.ok.injEq, Prod.mk.injEq] at h
    obtain ⟨hm, _⟩ := h
    subst hm
    simpa [isValidFunctionIndex] using hv

theorem readElemRec_ok {m : WasmObjectFile} {b : List Nat} {seg : WasmElemSegment}
    {r : List Nat} (h : readElemRec m b = .ok (seg, r)) :
    ∀ i ∈ seg.functions, i < funcBound m := by
  unfold readElemRec at h
  cases h1 : readVaruint32 b with
  | error e1 => simp [h1] at h
  | ok pr1 =>
    obtain ⟨ti, r1⟩ := pr1
    simp only [h1] at h
    split_ifs at h with ht
    cases h2 : readInitExpr r1.length r1 with
    | error e2 => simp [h2] at h
    | ok pr2 =>
      obtain ⟨off, r2⟩ := pr2
      cases h3 : readVaruint32 r2 with
      | error e3 => simp [h2, h3] at h
      | ok pr3 =>
        obtain ⟨cnt, r3⟩ := pr3
        cases h4 : readN (readElemFuncIdx m) cnt r3 with
        | error e4 => simp [h2, h3, h4] at h
        | ok pr4 =>
          obtain ⟨fns, r4⟩ := pr4
          simp only [h2, h3, h4, Except.ok.injEq, Prod.mk.injEq] at h
          obtain ⟨hm, _⟩ := h
          subst hm
          exact readN_forall (readElemFuncIdx m) (fun i => i < funcBound m)
            (fun bb rr rest hh => readElemFuncIdx_ok hh) cnt r3 fns r4 h4

theorem readNameRec_ok {m : WasmObjectFile} {b : List Nat} {n : WasmFunctionName}
    {r : List Nat} (h : readNameRec m b = .ok (n, r)) : n.index < funcBound m := by
  unfold readNameRec at h
  cases h1 : readVaruint32 b with
  | error e1 => simp [h1] at h
  | ok pr1 =>
    obtain ⟨idx, r1⟩ := pr1
    simp only [h1] at h
    split_ifs at h with hv
    cases h2 : readString r1 with
    | error e2 => simp [h2] at h
    | ok pr2 =>
      obtain ⟨name, r2⟩ := pr2
      simp only [h2, Except.ok.injEq, Prod.mk.injEq] at h
      obtain ⟨hm, _⟩ := h
      subst hm
      simpa [isValidFunctionIndex] using hv

theorem readElemSymbol_ok {m : WasmObjectFile} {kind flags : Nat}
    {v d : Nat → Bool} {ik : Nat} {r2 : List Nat} {s : WasmSymbolInfo}
    {r : List Nat} (h : readElemSymbol m kind flags v d ik r2 = .ok (s, r)) :
    s.kind = kind ∧ v s.index = true := by
  unfold readElemSymbol at h
  cases h1 : readVaruint32 r2 with
  | error e1 => simp [h1] at h
  | ok pr1 =>
    obtain ⟨idx, r3⟩ := pr1
    simp only [h1] at h
    split_ifs at h with hval hdef
    · cases h2 : readString r3 with
      | error e2 => simp [h2] at h
      | ok pr2 =>
        obtain ⟨name, r4⟩ := pr2
        simp only [h2, Except.ok.injEq, Prod.mk.injEq] at h
        obtain ⟨hm, _⟩ := h
        subst hm
        rw [Bool.and_eq_true] at hval
        exact ⟨rfl, hval.1⟩
    · simp only [Except.ok.injEq, Prod.mk.injEq] at h
      obtain ⟨hm, _⟩ := h
      subst hm
      rw [Bool.and_eq_true] at hval
      exact ⟨rfl, hval.1⟩

theorem readSymbolRec_ok {m : WasmObjectFile} {b : List Nat} {s : WasmSymbolInfo}
    {r : List Nat} (h : readSymbolRec m b = .ok (s, r)) : symOkB m s = true := by
  unfold readSymbolRec at h
  cases h1 : readUint8 b with
  | error e1 => simp [h1] at h
  | ok pr1 =>
    obtain ⟨kind, r1⟩ := pr1
    cases h2 : readVaruint32 r1 with
    | error e2 => simp [h1, h2] at h
    | ok pr2 =>
      obtain ⟨flags, r2⟩ := pr2
      simp only [h1, h2] at h
      split_ifs at h with hk0 hk2 hk4 hk1 hdef hk3
      · obtain ⟨hs, hv⟩ := readElemSymbol_ok h
        simp [symOkB, hs, hv]
      · obtain ⟨hs, hv⟩ := readElemSymbol_ok h
        simp [symOkB, hs, hv]
      · obtain ⟨hs, hv⟩ := readElemSymbol_ok h
        simp [symOkB, hs, hv]
      · -- defined data symbol
        cases h3 : readString r2 with
        | error e3 => simp [h3] at h
        | ok pr3 =>
          obtain ⟨name, r3⟩ := pr3
          simp only [h3] at h
          cases h4 : readVaruint32 r3 with
          | error e4 => simp [h4] at h
          | ok pr4 =>
            obtain ⟨seg, r4⟩ := pr4
            simp only [h4] at h
            split_ifs at h with hsegv
            cases h5 : readVaruint32 r4 with
            | error e5 => simp [h5] at h
            | ok pr5 =>
              obtain ⟨off, r5⟩ := pr5
              cases h6 : readVaruint32 r5 with
              | error e6 => simp [h5, h6] at h
              | ok pr6 =>
                obtain ⟨sz, r6⟩ := pr6
                simp only [h5, h6, Except.ok.injEq, Prod.mk.injEq] at h
                obtain ⟨hm, _⟩ := h
                subst hm
                simp [symOkB, hk0, hk2, hk4]
      · -- undefined data symbol
        cases h3 : readString r2 with
        | error e3 => simp [h3] at h
        | ok pr3 =>
          obtain ⟨name, r3⟩ := pr3
          simp only [h3, Except.ok.injEq, Prod.mk.injEq] at h
          obtain ⟨hm, _⟩ := h
          subst hm
          simp [symOkB, hk0, hk2, hk4]
      · -- section symbol
        cases h3 : readVaruint32 r2 with
        | error e3 => simp [h3] at h
        | ok pr3 =>
          obtain ⟨idx, r3⟩ := pr3
          simp only [h3] at h
          split_ifs at h with hsec
          simp only [Except.ok.injEq, Prod.mk.injEq] at h
          obtain ⟨hm, _⟩ := h
          subst hm
          simp [symOkB, hk0, hk2, hk4]

theorem parseTypeSection_spec {m m' : WasmObjectFile} {b rest : List Nat}
    (h : parseTypeSection m b = .ok (m', rest)) : stepOK m m' := by
  unfold parseTypeSection at h
  cases h1 : readVaruint32 b with
  | error e1 => simp [h1] at h
  | ok pr1 =>
    obtain ⟨count, r1⟩ := pr1
    cases h2 : readN readSigRec count r1 with
    | error e2 => simp [h1, h2] at h
    | ok pr2 =>
      obtain ⟨sigs, r2⟩ := pr2
      simp only [h1, h2, Except.ok.injEq, Prod.mk.injEq] at h
      obtain ⟨hm, _⟩ := h
      subst hm
      exact stepOK_of_update rfl rfl rfl rfl rfl rfl (le_refl _) (le_refl _) (le_refl _)

theorem parseImportSection_spec {m m' : WasmObjectFile} {b rest : List Nat}
    (h : parseImportSection m b = .ok (m', rest)) : stepOK m m' := by
  unfold parseImportSection at h
  cases h1 : readVaruint32 b with
  | error e1 => simp [h1] at h
  | ok pr1 =>
    obtain ⟨count, r1⟩ := pr1
    cases h2 : readN (readImportRec m) count r1 with
    | error e2 => simp [h1, h2] at h
    | ok pr2 =>
      obtain ⟨ims, r2⟩ := pr2
      simp only [h1, h2, Except.ok.injEq, Prod.mk.injEq] at h
      obtain ⟨hm, _⟩ := h
      subst hm
      refine stepOK_of_update rfl rfl rfl rfl rfl rfl ?_ ?_ ?_ <;>
        simp [applyImports, funcBound, globalBound, eventBound]

theorem parseFunctionSection_spec {m m' : WasmObjectFile} {b rest : List Nat}
    (h : parseFunctionSection m b = .ok (m', rest)) : stepOK m m' := by
  unfold parseFunctionSection at h
  cases h1 : readVaruint32 b with
  | error e1 => simp [h1] at h
  | ok pr1 =>
    obtain ⟨count, r1⟩ := pr1
    cases h2 : readN (readFuncTypeRec m) count r1 with
    | error e2 => simp [h1, h2] at h
    | ok pr2 =>
      obtain ⟨fts, r2⟩ := pr2
      simp only [h1, h2, Except.ok.injEq, Prod.mk.injEq] at h
      obtain ⟨hm, _⟩ := h
      subst hm
      refine stepOK_of_update rfl rfl rfl rfl rfl rfl ?_ ?_ ?_ <;>
        simp [funcBound, globalBound, eventBound]

theorem parseTableSection_spec {m m' : WasmObjectFile} {b rest : List Nat}
    (h : parseTableSection m b = .ok (m', rest)) : stepOK m m' := by
  unfold parseTableSection at h
  cases h1 : readVaruint32 b with
  | error e1 => simp [h1] at h
  | ok pr1 =>
    obtain ⟨count, r1⟩ := pr1
    cases h2 : readN readTableRec count r1 with
    | error e2 => simp [h1, h2] at h
    | ok pr2 =>
      obtain ⟨ts, r2⟩ := pr2
      simp only [h1, h2, Except.ok.injEq, Prod.mk.injEq] at h
      obtain ⟨hm, _⟩ := h
      subst hm
      exact stepOK_of_update rfl rfl rfl rfl rfl rfl (le_refl _) (le_refl _) (le_refl _)

theorem parseMemorySection_spec {m m' : WasmObjectFile} {b rest : List Nat}
    (h : parseMemorySection m b = .ok (m', rest)) : stepOK m m' := by
  unfold parseMemorySection at h
  cases h1 : readVaruint32 b with
  | error e1 => simp [h1] at h
  | ok pr1 =>
    obtain ⟨count, r1⟩ := pr1
    cases h2 : readN readLimits count r1 with
    | error e2 => simp [h1, h2] at h
    | ok pr2 =>
      obtain ⟨ms, r2⟩ := pr2
      simp only [h1, h2, Except.ok.injEq, Prod.mk.injEq] at h
      obtain ⟨hm, _⟩ := h
      subst hm
      exact stepOK_of_update rfl rfl rfl rfl rfl rfl (le_refl _) (le_refl _) (le_refl _)

theorem parseGlobalSection_spec {m m' : WasmObjectFile} {b rest : List Nat}
    (h : parseGlobalSection m b = .ok (m', rest)) : stepOK m m' := by
  unfold parseGlobalSection at h
  cases h1 : readVaruint32 b with
  | error e1 => simp [h1] at h
  | ok pr1 =>
    obtain ⟨count, r1⟩ := pr1
    cases h2 : readN readGlobalRec count r1 with
    | error e2 => simp [h1, h2] at h
    | ok pr2 =>
      obtain ⟨gs, r2⟩ := pr2
      simp only [h1, h2, Except.ok.injEq, Prod.mk.injEq] at h
      obtain ⟨hm, _⟩ := h
      subst hm
      refine stepOK_of_update rfl rfl rfl rfl rfl rfl ?_ ?_ ?_ <;>
        simp [funcBound, globalBound, eventBound]

theorem parseEventSection_spec {m m' : WasmObjectFile} {b rest : List Nat}
    (h : parseEventSection m b = .ok (m', rest)) : stepOK m m' := by
  unfold parseEventSection at h
  cases h1 : readVaruint32 b with
  | error e1 => simp [h1] at h
  | ok pr1 =>
    obtain ⟨count, r1⟩ := pr1
    cases h2 : readN (readEventRec m) count r1 with
    | error e2 => simp [h1, h2] at h
    | ok pr2 =>
      obtain ⟨es, r2⟩ := pr2
      simp only [h1, h2, Except.ok.injEq, Prod.mk.injEq] at h
      obtain ⟨hm, _⟩ := h
      subst hm
      refine stepOK_of_update rfl rfl rfl rfl rfl rfl ?_ ?_ ?_ <;>
        simp [funcBound, globalBound, eventBound]

theorem parseExportSection_spec {m m' : WasmObjectFile} {b rest : List Nat}
    (h : parseExportSection m b = .ok (m', rest)) : stepOK m m' := by
  unfold parseExportSection at h
  cases h1 : readVaruint32 b with
  | error e1 => simp [h1] at h
  | ok pr1 =>
    obtain ⟨count, r1⟩ := pr1
    cases h2 : readN (readExportRec m) count r1 with
    | error e2 => simp [h1, h2] at h
    | ok pr2 =>
      obtain ⟨exs, r2⟩ := pr2
      simp only [h1, h2, Except.ok.injEq, Prod.mk.injEq] at h
      obtain ⟨hm, _⟩ := h
      subst hm
      exact stepOK_addExports m exs
        (readN_forall (readExportRec m) (fun e => exportOkB m e = true)
          (fun bb rr rest hh => readExportRec_ok hh) count r1 exs r2 h2)

theorem parseElemSection_spec {m m' : WasmObjectFile} {b rest : List Nat}
    (h : parseElemSection m b = .ok (m', rest)) : stepOK m m' := by
  unfold parseElemSection at h
  cases h1 : readVaruint32 b with
  | error e1 => simp [h1] at h
  | ok pr1 =>
    obtain ⟨count, r1⟩ := pr1
    cases h2 : readN (readElemRec m) count r1 with
    | error e2 => simp [h1, h2] at h
    | ok pr2 =>
      obtain ⟨segs, r2⟩ := pr2
      simp only [h1, h2, Except.ok.injEq, Prod.mk.injEq] at h
      obtain ⟨hm, _⟩ := h
      subst hm
      exact stepOK_addElems m segs
        (readN_forall (readElemRec m) (fun seg => ∀ i ∈ seg.functions, i < funcBound m)
          (fun bb rr rest hh => readElemRec_ok hh) count r1 segs r2 h2)

theorem parseCodeSection_spec {m m' : WasmObjectFile} {b rest : List Nat}
    (h : parseCodeSection m b = .ok (m', rest)) : stepOK m m' := by
  unfold parseCodeSection at h
  cases h1 : readVaruint32 b with
  | error e1 => simp [h1] at h
  | ok pr1 =>
    obtain ⟨count, r1⟩ := pr1
    simp only [h1] at h
    split_ifs at h with hc
    cases h2 : readN readCodeRec count r1 with
    | error e2 => simp [h2] at h
    | ok pr2 =>
      obtain ⟨fns, r2⟩ := pr2
      simp only [h2, Except.ok.injEq, Prod.mk.injEq] at h
      obtain ⟨hm, _⟩ := h
      subst hm
      exact stepOK_of_update rfl rfl rfl rfl rfl rfl (le_refl _) (le_refl _) (le_refl _)

theorem parseDataSection_spec {m m' : WasmObjectFile} {b rest : List Nat}
    (h : parseDataSection m b = .ok (m', rest)) : stepOK m m' := by
  unfold parseDataSection at h
  cases h1 : readVaruint32 b with
  | error e1 => simp [h1] at h
  | ok pr1 =>
    obtain ⟨count, r1⟩ := pr1
    simp only [h1] at h
    cases hdc : m.dataCount with
    | some n =>
      simp only [hdc] at h
      split_ifs at h with hc
      cases h2 : readN (readDataSegRec m b.length) count r1 with
      | error e2 => simp [h2] at h
      | ok pr2 =>
        obtain ⟨segs, r2⟩ := pr2
        simp only [h2, Except.ok.injEq, Prod.mk.injEq] at h
        obtain ⟨hm, _⟩ := h
        subst hm
        exact stepOK_of_update rfl rfl rfl rfl rfl rfl (le_refl _) (le_refl _) (le_refl _)
    | none =>
      simp only [hdc] at h
      cases h2 : readN (readDataSegRec m b.length) count r1 with
      | error e2 => simp [h2] at h
      | ok pr2 =>
        obtain ⟨segs, r2⟩ := pr2
        simp only [h2, Except.ok.injEq, Prod.mk.injEq] at h
        obtain ⟨hm, _⟩ := h
        subst hm
        exact stepOK_of_update rfl rfl rfl rfl rfl rfl (le_refl _) (le_refl _) (le_refl _)

theorem parseDataCountSection_spec {m m' : WasmObjectFile} {b rest : List Nat}
    (h : parseDataCountSection m b = .ok (m', rest)) : stepOK m m' := by
  unfold parseDataCountSection at h
  cases h1 : readVaruint32 b with
  | error e1 => simp [h1] at h
  | ok pr1 =>
    obtain ⟨n, r1⟩ := pr1
    simp only [h1, Except.ok.injEq, Prod.mk.injEq] at h
    obtain ⟨hm, _⟩ := h
    subst hm
    exact stepOK_of_update rfl rfl rfl rfl rfl rfl (le_refl _) (le_refl _) (le_refl _)

theorem parseDylinkSection_spec {m m' : WasmObjectFile} {b rest : List Nat}
    (h : parseDylinkSection m b = .ok (m', rest)) : stepOK m m' := by
  unfold parseDylinkSection at h
  split_ifs at h with hdup
  cases h1 : readVaruint32 b with
  | error e1 => simp [h1] at h
  | ok pr1 =>
    obtain ⟨memSize, r1⟩ := pr1
    cases h2 : readVaruint32 r1 with
    | error e2 => simp [h1, h2] at h
    | ok pr2 =>
      obtain ⟨memAlign, r2⟩ := pr2
      cases h3 : readVaruint32 r2 with
      | error e3 => simp [h1, h2, h3] at h
      | ok pr3 =>
        obtain ⟨tabSize, r3⟩ := pr3
        cases h4 : readVaruint32 r3 with
        | error e4 => simp [h1, h2, h3, h4] at h
        | ok pr4 =>
          obtain ⟨tabAlign, r4⟩ := pr4
          cases h5 : readVaruint32 r4 with
          | error e5 => simp [h1, h2, h3, h4, h5] at h
          | ok pr5 =>
            obtain ⟨count, r5⟩ := pr5
            cases h6 : readN readString count r5 with
            | error e6 => simp [h1, h2, h3, h4, h5, h6] at h
            | ok pr6 =>
              obtain ⟨needed, r6⟩ := pr6
              simp only [h1, h2, h3, h4, h5, h6, Except.ok.injEq, Prod.mk.injEq] at h
              obtain ⟨hm, _⟩ := h
              subst hm
              exact stepOK_of_update rfl rfl rfl rfl rfl rfl (le_refl _) (le_refl _)
                (le_refl _)

theorem parseLinkingSectionSymtab_spec {m m' : WasmObjectFile} {b rest : List Nat}
    (h : parseLinkingSectionSymtab m b = .ok (m', rest)) : stepOK m m' := by
  unfold parseLinkingSectionSymtab at h
  cases h1 : readVaruint32 b with
  | error e1 => simp [h1] at h
  | ok pr1 =>
    obtain ⟨count, r1⟩ := pr1
    cases h2 : readN (readSymbolRec m) count r1 with
    | error e2 => simp [h1, h2] at h
    | ok pr2 =>
      obtain ⟨syms, r2⟩ := pr2
      simp only [h1, h2, Except.ok.injEq, Prod.mk.injEq] at h
      obtain ⟨hm, _⟩ := h
      subst hm
      exact stepOK_addSyms m syms
        (readN_forall (readSymbolRec m) (fun s => symOkB m s = true)
          (fun bb rr rest hh => readSymbolRec_ok hh) count r1 syms r2 h2)

theorem parseLinkingSubsections_spec :
    ∀ (fuel : Nat) (m m' : WasmObjectFile) (bytes : List Nat),
      parseLinkingSubsections m fuel bytes = .ok m' → stepOK m m' := by
  intro fuel
  induction fuel with
  | zero =>
    intro m m' bytes h
    cases bytes with
    | nil =>
      unfold parseLinkingSubsections at h
      simp only [Except.ok.injEq] at h
      subst h
      exact stepOK_refl m
    | cons t rest => simp [parseLinkingSubsections] at h
  | succ k ih =>
    intro m m' bytes h
    cases bytes with
    | nil =>
      unfold parseLinkingSubsections at h
      simp only [Except.ok.injEq] at h
      subst h
      exact stepOK_refl m
    | cons t rest =>
      unfold parseLinkingSubsections at h
      cases h1 : readVaruint32 rest with
      | error e1 => simp [h1] at h
      | ok pr1 =>
        obtain ⟨size, r1⟩ := pr1
        cases h2 : takeBytes size r1 with
        | error e2 => simp [h1, h2] at h
        | ok pr2 =>
          obtain ⟨payload, r2⟩ := pr2
          simp only [h1, h2] at h
          split_ifs at h with ht
          · cases h3 : parseLinkingSectionSymtab m payload with
            | error e3 => simp [h3] at h
            | ok pr3 =>
              obtain ⟨m1, leftover⟩ := pr3
              simp only [h3] at h
              split_ifs at h with hl
              exact stepOK_trans (parseLinkingSectionSymtab_spec h3) (ih m1 m' r2 h)
          · exact ih m m' r2 h

theorem parseLinkingSection_spec {m m' : WasmObjectFile} {b rest : List Nat}
    (h : parseLinkingSection m b = .ok (m', rest)) : stepOK m m' := by
  unfold parseLinkingSection at h
  cases h1 : readVaruint32 b with
  | error e1 => simp [h1] at h
  | ok pr1 =>
    obtain ⟨version, r1⟩ := pr1
    simp only [h1] at h
    split_ifs at h with hv
    cases h2 : parseLinkingSubsections {m with hasLinkingSection := true} r1.length r1 with
    | error e2 => simp [h2] at h
    | ok m2 =>
      simp only [h2, Except.ok.injEq, Prod.mk.injEq] at h
      obtain ⟨hm, _⟩ := h
      subst hm
      exact stepOK_trans
        (@stepOK_of_update m {m with hasLinkingSection := true}
          rfl rfl rfl rfl rfl rfl (le_refl _) (le_refl _) (le_refl _))
        (parseLinkingSubsections_spec _ _ _ _ h2)

theorem typesOf_set_same :
    ∀ (l : List WasmSection) (i : Nat) (sec : WasmSection) (rs : List WasmRelocation),
      l.get? i = some sec →
      typesOf (l.set i {sec with relocations := sec.relocations ++ rs}) = typesOf l := by
  intro l
  induction l with
  | nil => intro i sec rs h; simp at h
  | cons a t ih =>
    intro i sec rs h
    cases i with
    | zero =>
      simp only [List.get?] at h
      injection h with h
      subst h
      simp [typesOf, List.set]
    | succ j =>
      simp only [List.get?] at h
      simp only [typesOf, List.set, List.map_cons]
      have := ih j sec rs h
      simp only [typesOf] at this
      rw [this]

theorem stepOK_attachRelocs (m : WasmObjectFile) (i : Nat)
    (rs : List WasmRelocation) : stepOK m (attachRelocs m i rs) := by
  unfold attachRelocs
  cases hg : m.sections.get? i with
  | none => exact stepOK_refl m
  | some sec =>
    exact stepOK_of_update rfl rfl rfl rfl rfl
      (typesOf_set_same m.sections i sec rs hg) (le_refl _) (le_refl _) (le_refl _)

theorem parseRelocSection_spec {m m' : WasmObjectFile} {b rest : List Nat}
    (h : parseRelocSection m b = .ok (m', rest)) : stepOK m m' := by
  unfold parseRelocSection at h
  cases h1 : readVaruint32 b with
  | error e1 => simp [h1] at h
  | ok pr1 =>
    obtain ⟨secIdx, r1⟩ := pr1
    simp only [h1] at h
    cases hg : m.sections.get? secIdx with
    | none =>
      rw [hg] at h
      simp at h
    | some target =>
      rw [hg] at h
      simp only [] at h
      cases h2 : readVaruint32 r1 with
      | error e2 => simp [h2] at h
      | ok pr2 =>
        obtain ⟨count, r2⟩ := pr2
        cases h3 : readN (readRelocRec m target.content.length) count r2 with
        | error e3 => simp [h2, h3] at h
        | ok pr3 =>
          obtain ⟨rs, r3⟩ := pr3
          simp only [h2, h3, Except.ok.injEq, Prod.mk.injEq] at h
          obtain ⟨hm, _⟩ := h
          subst hm
          exact stepOK_attachRelocs m secIdx rs

theorem parseFunctionNames_spec {m m' : WasmObjectFile} {b rest : List Nat}
    (h : parseFunctionNames m b = .ok (m', rest)) : stepOK m m' := by
  unfold parseFunctionNames at h
  cases h1 : readVaruint32 b with
  | error e1 => simp [h1] at h
  | ok pr1 =>
    obtain ⟨count, r1⟩ := pr1
    cases h2 : readN (readNameRec m) count r1 with
    | error e2 => simp [h1, h2] at h
    | ok pr2 =>
      obtain ⟨ns, r2⟩ := pr2
      simp only [h1, h2, Except.ok.injEq, Prod.mk.injEq] at h
      obtain ⟨hm, _⟩ := h
      subst hm
      exact stepOK_addNames m ns
        (readN_forall (readNameRec m) (fun n => n.index < funcBound m)
          (fun bb rr rest hh => readNameRec_ok hh) count r1 ns r2 h2)

theorem parseNameSubsections_spec :
    ∀ (fuel : Nat) (m m' : WasmObjectFile) (bytes : List Nat),
      parseNameSubsections m fuel bytes = .ok m' → stepOK m m' := by
  intro fuel
  induction fuel with
  | zero =>
    intro m m' bytes h
    cases bytes with
    | nil =>
      unfold parseNameSubsections at h
      simp only [Except.ok.injEq] at h
      subst h
      exact stepOK_refl m
    | cons t rest => simp [parseNameSubsections] at h
  | succ k ih =>
    intro m m' bytes h
    cases bytes with
    | nil =>
      unfold parseNameSubsections at h
      simp only [Except.ok.injEq] at h
      subst h
      exact stepOK_refl m
    | cons t rest =>
      unfold parseNameSubsections at h
      cases h1 : readVaruint32 rest with
      | error e1 => simp [h1] at h
      | ok pr1 =>
        obtain ⟨size, r1⟩ := pr1
        cases h2 : takeBytes size r1 with
        | error e2 => simp [h1, h2] at h
        | ok pr2 =>
          obtain ⟨payload, r2⟩ := pr2
          simp only [h1, h2] at h
          split_ifs at h with ht
          · cases h3 : parseFunctionNames m payload with
            | error e3 => simp [h3] at h
            | ok pr3 =>
              obtain ⟨m1, leftover⟩ := pr3
              simp only [h3] at h
              split_ifs at h with hl
              exact stepOK_trans (parseFunctionNames_spec h3) (ih m1 m' r2 h)
          · exact ih m m' r2 h

theorem parseNameSection_spec {m m' : WasmObjectFile} {b rest : List Nat}
    (h : parseNameSection m b = .ok (m', rest)) : stepOK m m' := by
  unfold parseNameSection at h
  cases h1 : parseNameSubsections m b.length b with
  | error e1 => simp [h1] at h
  | ok m1 =>
    simp only [h1, Except.ok.injEq, Prod.mk.injEq] at h
    obtain ⟨hm, _⟩ := h
    subst hm
    exact parseNameSubsections_spec _ _ _ _ h1

theorem parseCustomSection_spec {m m' : WasmObjectFile} {name b rest : List Nat}
    (h : parseCustomSection m name b = .ok (m', rest)) : stepOK m m' := by
  unfold parseCustomSection at h
  split_ifs at h with hd hl hr hn
  · exact parseDylinkSection_spec h
  · exact parseLinkingSection_spec h
  · exact parseRelocSection_spec h
  · exact parseNameSection_spec h
  · simp only [Except.ok.injEq, Prod.mk.injEq] at h
    obtain ⟨hm, _⟩ := h
    subst hm
    exact stepOK_refl _

theorem parseStartSection_spec {m m' : WasmObjectFile} {b rest : List Nat}
    (h : parseStartSection m b = .ok (m', rest)) :
    typesOf m'.sections = typesOf m.sections ∧ (goodModel m → goodModel m') := by
  unfold parseStartSection at h
  cases h1 : readVaruint32 b with
  | error e1 => simp [h1] at h
  | ok pr1 =>
    obtain ⟨idx, r1⟩ := pr1
    simp only [h1] at h
    split_ifs at h with hok
    simp only [Except.ok.injEq, Prod.mk.injEq] at h
    obtain ⟨hm, _⟩ := h
    subst hm
    refine ⟨rfl, fun hgood => ?_⟩
    obtain ⟨g1, g2, g3, _, g5⟩ := hgood
    refine ⟨g1, g2, g3, Or.inr ?_, g5⟩
    rw [Bool.and_eq_true] at hok
    have hdefined := hok.1
    unfold isDefinedFunctionIndex at hdefined
    rw [Bool.and_eq_true] at hdefined
    simpa [isValidFunctionIndex] using hdefined.2

theorem runSectionDecoder_spec {m m' : WasmObjectFile} {id : Nat}
    {name payload rest : List Nat}
    (h : runSectionDecoder m id name payload = .ok (m', rest)) :
    typesOf m'.sections = typesOf m.sections ∧ (goodModel m → goodModel m') ∧
      (id ≠ 8 → m'.startFunction = m.startFunction) := by
  unfold runSectionDecoder at h
  split at h
  · obtain ⟨hst, hty, hgd⟩ := parseCustomSection_spec h
    exact ⟨hty, hgd, fun _ => hst⟩
  · obtain ⟨hst, hty, hgd⟩ := parseTypeSection_spec h
    exact ⟨hty, hgd, fun _ => hst⟩
  · obtain ⟨hst, hty, hgd⟩ := parseImportSection_spec h
    exact ⟨hty, hgd, fun _ => hst⟩
  · obtain ⟨hst, hty, hgd⟩ := parseFunctionSection_spec h
    exact ⟨hty, hgd, fun _ => hst⟩
  · obtain ⟨hst, hty, hgd⟩ := parseTableSection_spec h
    exact ⟨hty, hgd, fun _ => hst⟩
  · obtain ⟨hst, hty, hgd⟩ := parseMemorySection_spec h
    exact ⟨hty, hgd, fun _ => hst⟩
  · obtain ⟨hst, hty, hgd⟩ := parseGlobalSection_spec h
    exact ⟨hty, hgd, fun _ => hst⟩
  · obtain ⟨hst, hty, hgd⟩ := parseExportSection_spec h
    exact ⟨hty, hgd, fun _ => hst⟩
  · obtain ⟨hty, hgd⟩ := parseStartSection_spec h
    refine ⟨hty, hgd, fun hne => absurd rfl hne⟩
  · obtain ⟨hst, hty, hgd⟩ := parseElemSection_spec h
    exact ⟨hty, hgd, fun _ => hst⟩
  · obtain ⟨hst, hty, hgd⟩ := parseCodeSection_spec h
    exact ⟨hty, hgd, fun _ => hst⟩
  · obtain ⟨hst, hty, hgd⟩ := parseDataSection_spec h
    exact ⟨hty, hgd, fun _ => hst⟩
  · obtain ⟨hst, hty, hgd⟩ := parseDataCountSection_spec h
    exact ⟨hty, hgd, fun _ => hst⟩
  · obtain ⟨hst, hty, hgd⟩ := parseEventSection_spec h
    exact ⟨hty, hgd, fun _ => hst⟩
  · simp at h

theorem parseSection_inv {m m1 : WasmObjectFile} {seen seen1 : List Nat}
    {off id : Nat} {body : List Nat}
    (h : parseSection m seen off id body = .ok (m1, seen1)) (hinv : Inv m) :
    Inv m1 := by
  unfold parseSection at h
  cases h1 : stripCustomName id body with
  | error e1 => simp [h1] at h
  | ok pr1 =>
    obtain ⟨name, payload⟩ := pr1
    simp only [h1] at h
    cases h2 : checkOrder seen id name with
    | none => simp [h2] at h
    | some seen2 =>
      simp only [h2] at h
      cases h3 : runSectionDecoder m id name payload with
      | error e3 => simp [h3] at h
      | ok pr3 =>
        obtain ⟨m2, leftover⟩ := pr3
        simp only [h3] at h
        split_ifs at h with hl
        simp only [Except.ok.injEq, Prod.mk.injEq] at h
        obtain ⟨hm, _⟩ := h
        subst hm
        obtain ⟨hty, hgd, hst⟩ := runSectionDecoder_spec h3
        obtain ⟨hgood, hstart⟩ := hinv
        constructor
        · exact goodModel_mono rfl rfl rfl rfl rfl (le_refl _) (le_refl _) (le_refl _)
            (hgd hgood)
        · by_cases hid : id = 8
          · right
            subst hid
            simp [appendSection, typesOf]
          · have hsf : (appendSection m2 id name body off).startFunction
                = m.startFunction := hst hid
            rcases hstart with hsent | hmem
            · exact Or.inl (hsf.trans hsent)
            · right
              have : 8 ∈ typesOf m2.sections := hty ▸ hmem
              simp only [appendSection, typesOf, List.map_append, List.map_cons,
                List.map_nil]
              exact List.mem_append.mpr (Or.inl this)

theorem parseSections_inv :
    ∀ (fuel : Nat) (m m' : WasmObjectFile) (seen : List Nat) (pos : Nat)
      (bytes : List Nat),
      parseSections m seen pos fuel bytes = .ok m' → Inv m → Inv m' := by
  intro fuel
  induction fuel with
  | zero =>
    intro m m' seen pos bytes h hinv
    cases bytes with
    | nil =>
      unfold parseSections at h
      simp only [Except.ok.injEq] at h
      subst h
      exact hinv
    | cons t rest => simp [parseSections] at h
  | succ k ih =>
    intro m m' seen pos bytes h hinv
    cases bytes with
    | nil =>
      unfold parseSections at h
      simp only [Except.ok.injEq] at h
      subst h
      exact hinv
    | cons idByte rest =>
      unfold parseSections at h
      cases h1 : readVaruint32 rest with
      | error e1 => simp [h1] at h
      | ok pr1 =>
        obtain ⟨size, r1⟩ := pr1
        cases h2 : takeBytes size r1 with
        | error e2 => simp [h1, h2] at h
        | ok pr2 =>
          obtain ⟨body, r2⟩ := pr2
          simp only [h1, h2] at h
          cases h3 : parseSection m seen pos (idByte % 256) body with
          | error e3 => simp [h3] at h
          | ok pr3 =>
            obtain ⟨m1, seen1⟩ := pr3
            simp only [h3] at h
            exact ih m1 m' seen1 _ r2 h (parseSection_inv h3 hinv)

theorem goodModel_init : goodModel {} :=
  ⟨fun e he => absurd he (List.not_mem_nil e),
   fun seg hseg => absurd hseg (List.not_mem_nil seg),
   fun s hs => absurd hs (List.not_mem_nil s),
   Or.inl rfl,
   fun n hn => absurd hn (List.not_mem_nil n)⟩

theorem decode_inv {bytes : List Nat} {m : WasmObjectFile}
    (h : decode bytes = .ok m) : Inv m := by
  unfold decode at h
  cases h1 : takeBytes 4 bytes with
  | error e1 => simp [h1] at h
  | ok pr1 =>
    obtain ⟨magic, r1⟩ := pr1
    simp only [h1] at h
    split_ifs at h with hmagic
    cases h2 : takeBytes 4 r1 with
    | error e2 => simp [h2] at h
    | ok pr2 =>
      obtain ⟨ver, r2⟩ := pr2
      simp only [h2] at h
      split_ifs at h with hver
      exact parseSections_inv r2.length {} m [] 8 r2 h ⟨goodModel_init, Or.inl rfl⟩

/-! ## Claims -/

/-- C1: a Start section referencing an imported (not defined) function or
a function whose signature is not empty-to-empty fails with InvalidIndex;
it is accepted exactly when it references a defined function of signature
from no arguments to no results. -/
theorem start_section_requires_defined_void_function
    (m : WasmObjectFile) (b r1 : List Nat) (idx : Nat)
    (h : readVaruint32 b = Except.ok (idx, r1)) :
    (¬(isDefinedFunctionIndex m idx = true ∧ startSigOk m idx = true) →
      errKind (parseStartSection m b) = some ErrKind.invalidIndex) ∧
    (∀ (m' : WasmObjectFile) (rest : List Nat),
      parseStartSection m b = Except.ok (m', rest) →
      isDefinedFunctionIndex m idx = true ∧ startSigOk m idx = true ∧
        m'.startFunction = idx) := by
  constructor
  · intro hbad
    unfold parseStartSection
    simp only [h]
    rw [if_neg]
    · rfl
    · rw [Bool.and_eq_true]
      exact hbad
  · intro m' rest hok
    unfold parseStartSection at hok
    simp only [h] at hok
    split_ifs at hok with hc
    simp only [Except.ok.injEq, Prod.mk.injEq] at hok
    obtain ⟨hm, _⟩ := hok
    subst hm
    rw [Bool.and_eq_true] at hc
    exact ⟨hc.1, hc.2, rfl⟩

/-- C1 witness: with one imported and one defined void function, the
Start section naming index 0 (the import) is an InvalidIndex error, and
naming index 1 (the defined function) is accepted and recorded. -/
theorem start_section_requires_defined_void_function_witness :
    errKind (parseStartSection startStateDemo [0]) = some ErrKind.invalidIndex ∧
    (isDefinedFunctionIndex startStateDemo 1 = true ∧
      startSigOk startStateDemo 1 = true ∧
      ({startStateDemo with startFunction := 1} : WasmObjectFile).startFunction = 1) :=
  ⟨(start_section_requires_defined_void_function startStateDemo [0] [] 0 rfl).1
      (by decide),
   (start_section_requires_defined_void_function startStateDemo [1] [] 1 rfl).2
      {startStateDemo with startFunction := 1} [] rfl⟩

/-- C2 counterexample: a module whose linking section comes before the
reloc section referencing it decodes successfully, so it is not rejected
with InvalidSectionOrder as the claim states. -/
theorem linking_then_reloc_accepted :
    isOkE (decode goodOrderModule) = true ∧
    errKind (decode goodOrderModule) ≠ some ErrKind.invalidSectionOrder :=
  ⟨rfl, by decide⟩

/-- C2 amended: a reloc section before the linking section is rejected
with InvalidSectionOrder (once a reloc slot has been seen, the linking
slot is invalid), and the same module reordered with linking before the
reloc section is accepted. -/
theorem reloc_before_linking_rejected :
    (∀ seen : List Nat, 16 ∈ seen → orderOk seen 15 = false) ∧
    errKind (decode badOrderModule) = some ErrKind.invalidSectionOrder ∧
    isOkE (decode goodOrderModule) = true := by
  refine ⟨?_, by decide, rfl⟩
  intro seen hmem
  have h16 : (16 : Nat) ∈ transDisallowed 15 := by decide
  unfold orderOk
  rw [Bool.eq_false_iff]
  intro hall
  rw [List.all_eq_true] at hall
  have h2 := hall 16 h16
  simp only [Bool.not_eq_true'] at h2
  rw [decide_eq_false_iff_not] at h2
  exact h2 hmem

/-- C2 witness: a seen set containing the reloc slot makes the linking
slot invalid. -/
theorem reloc_before_linking_rejected_witness : orderOk [16] 15 = false :=
  reloc_before_linking_rejected.1 [16] (by decide)

/-- C3: a Code section whose entry count differs from the defined-function
count of the Function section fails with Malformed; on success the count
matched and one opaque body was stored per defined function. -/
theorem code_count_must_match_function_count
    (m : WasmObjectFile) (b r1 : List Nat) (count : Nat)
    (h : readVaruint32 b = Except.ok (count, r1)) :
    (count ≠ m.functionTypes.length →
      errKind (parseCodeSection m b) = some ErrKind.malformed) ∧
    (∀ (m' : WasmObjectFile) (rest : List Nat),
      parseCodeSection m b = Except.ok (m', rest) →
      count = m.functionTypes.length ∧
        m'.functions.length = m.functions.length + m.functionTypes.length) := by
  constructor
  · intro hne
    unfold parseCodeSection
    simp only [h]
    rw [if_pos hne]
    rfl
  · intro m' rest hok
    unfold parseCodeSection at hok
    simp only [h] at hok
    split_ifs at hok with hne
    cases h2 : readN readCodeRec count r1 with
    | error e2 => simp [h2] at hok
    | ok pr2 =>
      obtain ⟨fns, r2⟩ := pr2
      simp only [h2, Except.ok.injEq, Prod.mk.injEq] at hok
      obtain ⟨hm, _⟩ := hok
      subst hm
      have hlen := readN_length readCodeRec count r1 fns r2 h2
      have hceq : count = m.functionTypes.length := not_ne_iff.mp hne
      refine ⟨hceq, ?_⟩
      simp [hlen, hceq]

/-- C3 witness: with one declared function, a Code section of count 0 is
Malformed, and a Code section of count 1 stores one body. -/
theorem code_count_must_match_function_count_witness :
    errKind (parseCodeSection codeStateDemo [0]) = some ErrKind.malformed ∧
    (1 = codeStateDemo.functionTypes.length ∧
      ({codeStateDemo with functions := [⟨[11]⟩]} : WasmObjectFile).functions.length
        = codeStateDemo.functions.length + codeStateDemo.functionTypes.length) :=
  ⟨(code_count_must_match_function_count codeStateDemo [0] [] 0 rfl).1 (by decide),
   (code_count_must_match_function_count codeStateDemo [1, 1, 11] [1, 11] 1 rfl).2
      {codeStateDemo with functions := [⟨[11]⟩]} [] rfl⟩

/-- C4: in every successfully decoded module, every function, global and
event index stored in the model (exports, element segments, symbols,
start function, debug names) is strictly below the imported-plus-defined
count of its kind index space. -/
theorem decoded_model_indices_in_bounds (bytes : List Nat) (m : WasmObjectFile)
    (h : decode bytes = Except.ok m) : goodModel m :=
  (decode_inv h).1

/-- C4 witness: the demo module with an import, a defined function, an
export and a start function decodes and satisfies the invariant. -/
theorem decoded_model_indices_in_bounds_witness :
    ∃ m, decode demoModule = Except.ok m ∧ goodModel m :=
  ⟨_, rfl, decoded_model_indices_in_bounds demoModule _ rfl⟩

/-- C5: the dispatcher demands that a section decoder consume its body
exactly: leftover bytes are a Malformed error, exact consumption yields
the stored section, and a read past the end of a slice (missing bytes) is
a Malformed error. -/
theorem section_body_exact_consumption
    (m m1 : WasmObjectFile) (seen seen1 : List Nat) (off id : Nat)
    (body name payload leftover : List Nat)
    (hname : stripCustomName id body = Except.ok (name, payload))
    (horder : checkOrder seen id name = some seen1)
    (hrun : runSectionDecoder m id name payload = Except.ok (m1, leftover)) :
    (leftover ≠ [] →
      errKind (parseSection m seen off id body) = some ErrKind.malformed) ∧
    (leftover = [] →
      parseSection m seen off id body =
        Except.ok (appendSection m1 id name body off, seen1)) ∧
    (∀ (k : Nat) (bytes : List Nat), bytes.length < k →
      errKind (takeBytes k bytes) = some ErrKind.malformed) := by
  refine ⟨?_, ?_, ?_⟩
  · intro hne
    unfold parseSection
    simp only [hname, horder, hrun]
    rw [if_neg hne]
    rfl
  · intro he
    unfold parseSection
    simp only [hname, horder, hrun]
    rw [if_pos he]
  · intro k bytes hlt
    unfold takeBytes
    rw [if_pos hlt]
    rfl

/-- C5 witness: a Type section body with a trailing byte is Malformed, the
same section without it is stored, and a two-byte slice of a one-byte
buffer is Malformed. -/
theorem section_body_exact_consumption_witness :
    errKind (parseSection {} [] 8 1 [0, 99]) = some ErrKind.malformed ∧
    parseSection {} [] 8 1 [0] = Except.ok (appendSection {} 1 [] [0] 8, [1]) ∧
    errKind (takeBytes 2 [7]) = some ErrKind.malformed :=
  ⟨(section_body_exact_consumption {} {} [] [1] 8 1 [0, 99] [] [0, 99] [99]
      rfl rfl rfl).1 (by decide),
   (section_body_exact_consumption {} {} [] [1] 8 1 [0] [] [0] []
      rfl rfl rfl).2.1 rfl,
   (section_body_exact_consumption {} {} [] [1] 8 1 [0] [] [0] []
      rfl rfl rfl).2.2 2 [7] (by decide)⟩

/-- C6: when a Data-Count section recorded a count, the Data section is
accepted only when its decoded segment count equals it; a mismatch is a
Malformed error. -/
theorem data_count_matches_segments
    (m : WasmObjectFile) (b r1 : List Nat) (n count : Nat)
    (hdc : m.dataCount = some n)
    (h : readVaruint32 b = Except.ok (count, r1)) :
    (count ≠ n → errKind (parseDataSection m b) = some ErrKind.malformed) ∧
    (∀ (m' : WasmObjectFile) (rest : List Nat),
      parseDataSection m b = Except.ok (m', rest) →
      count = n ∧ m'.dataSegments.length = m.dataSegments.length + n) := by
  constructor
  · intro hne
    unfold parseDataSection
    simp only [h, hdc]
    rw [if_pos hne]
    rfl
  · intro m' rest hok
    unfold parseDataSection at hok
    simp only [h, hdc] at hok
    split_ifs at hok with hne
    cases h2 : readN (readDataSegRec m b.length) count r1 with
    | error e2 => simp [h2] at hok
    | ok pr2 =>
      obtain ⟨segs, r2⟩ := pr2
      simp only [h2, Except.ok.injEq, Prod.mk.injEq] at hok
      obtain ⟨hm, _⟩ := hok
      subst hm
      have hlen := readN_length (readDataSegRec m b.length) count r1 segs r2 h2
      have hceq : count = n := not_ne_iff.mp hne
      refine ⟨hceq, ?_⟩
      simp [hlen, hceq]

/-- C6 witness: with a recorded Data-Count of 1, a Data section of count 0
is Malformed, and a Data section with exactly one segment is accepted. -/
theorem data_count_matches_segments_witness :
    errKind (parseDataSection dataStateDemo [0]) = some ErrKind.malformed ∧
    (1 = 1 ∧
      ({dataStateDemo with
          dataSegments := [⟨4, ⟨0, 0, [11], [42]⟩⟩]} : WasmObjectFile).dataSegments.length
        = dataStateDemo.dataSegments.length + 1) :=
  ⟨(data_count_matches_segments dataStateDemo [0] [] 1 0 rfl rfl).1 (by decide),
   (data_count_matches_segments dataStateDemo [1, 0, 11, 1, 42] [0, 11, 1, 42] 1 1
      rfl rfl).2
      {dataStateDemo with dataSegments := [⟨4, ⟨0, 0, [11], [42]⟩⟩]} [] rfl⟩

/-- C7: the module of exactly the magic and version decodes successfully
and every decoded array of the model is empty. -/
theorem minimal_module_decodes_empty :
    ∃ m, decode minimalModule = Except.ok m ∧
      m.signatures = [] ∧ m.imports = [] ∧ m.functions = [] ∧
      m.tables = [] ∧ m.memories = [] ∧ m.globals = [] ∧ m.events = [] ∧
      m.exports = [] ∧ m.elemSegments = [] ∧ m.dataSegments = [] ∧
      m.symbols = [] ∧ m.sections = [] :=
  ⟨{}, rfl, rfl, rfl, rfl, rfl, rfl, rfl, rfl, rfl, rfl, rfl, rfl, rfl⟩

/-- C8: decoding depends only on the bytes: identical buffers decode to
structurally identical outcomes. -/
theorem decode_deterministic (b1 b2 : List Nat) (h : b1 = b2) :
    decode b1 = decode b2 := by rw [h]

/-- C8 witness: re-decoding the same buffer yields the same outcome. -/
theorem decode_deterministic_witness : decode minimalModule = decode minimalModule :=
  decode_deterministic minimalModule minimalModule rfl

/-- C9: a successfully decoded module whose stored sections contain no
Start section reports the uint32 sentinel 4294967295 as its start
function. -/
theorem no_start_section_sentinel (bytes : List Nat) (m : WasmObjectFile)
    (h : decode bytes = Except.ok m) (hno : ∀ s ∈ m.sections, s.type ≠ 8) :
    m.startFunction = 4294967295 := by
  rcases (decode_inv h).2 with hs | hmem
  · exact hs
  · obtain ⟨s, hsmem, hstype⟩ := List.mem_map.mp hmem
    exact absurd hstype (hno s hsmem)

/-- C9 witness: the minimal module has no sections at all and reports the
sentinel. -/
theorem no_start_section_sentinel_witness :
    ∃ m, decode minimalModule = Except.ok m ∧ m.startFunction = 4294967295 :=
  ⟨{}, rfl, no_start_section_sentinel minimalModule {} rfl
    (fun s hs => absurd hs (List.not_mem_nil s))⟩

/-- C10: isDefined is exactly the negation of isUndefined; the three
binding predicates are mutually exclusive because getBinding masks a
single value compared against distinct constants; and a symbol cannot be
hidden and of default visibility at once. -/
theorem symbol_flag_predicates_consistent (flags : Nat) :
    isDefined flags = !(isUndefined flags) ∧
    (isBindingWeak flags && isBindingGlobal flags) = false ∧
    (isBindingWeak flags && isBindingLocal flags) = false ∧
    (isBindingGlobal flags && isBindingLocal flags) = false ∧
    (isHidden flags && (getVisibility flags == WASM_SYMBOL_VISIBILITY_DEFAULT))
      = false := by
  refine ⟨rfl, ?_, ?_, ?_, ?_⟩ <;>
  · simp only [isBindingWeak, isBindingGlobal, isBindingLocal, isHidden,
      WASM_SYMBOL_BINDING_WEAK, WASM_SYMBOL_BINDING_GLOBAL,
      WASM_SYMBOL_BINDING_LOCAL, WASM_SYMBOL_VISIBILITY_HIDDEN,
      WASM_SYMBOL_VISIBILITY_DEFAULT, Bool.and_eq_false_iff, beq_iff_eq,
      beq_eq_false_iff_ne, ne_eq]
    omega

end WasmObj
